import Mathlib

/-!
# Formal model of the pvp-backend match engine

Shallow embedding of the authoritative rules engine in `src/server.js`
(the socket server holding the match state machine, combat resolver,
ability dispatcher and state-redaction layer).  JavaScript numbers are
modelled as rationals (`ℚ`); `Math.floor` is `Int.floor`; the source's
`Number.isInteger(x) ? x : d` guards are modelled by `jsInt`; truthiness
of `x || d` on numbers is modelled by `jsOr`.  Mutation is modelled by
explicit state passing; `Math.random()` results are threaded as an
explicit stream of rationals and `Date.now()` as an explicit parameter.
-/

namespace PvP

/-- The two match sides, `p1`/`p2` in the source. -/
inductive Role where
  | p1
  | p2
deriving DecidableEq, Repr

/-- The two board lines of five slots each. -/
inductive Line where
  | front
  | back
deriving DecidableEq, Repr

/-- `enemyRoleOf` from server.js. -/
def enemyRoleOf : Role → Role
  | .p1 => .p2
  | .p2 => .p1

/-- Models `Number.isInteger(x) ? x : d` on a JS number. -/
def jsInt (x d : ℚ) : ℚ := if x.den = 1 then x else d

/-- Models `x || d` on a JS number (`0` is falsy). -/
def jsOr (x d : ℚ) : ℚ := if x = 0 then d else x

/-- `Math.max` (kernel-reducible form). -/
def jsMax (a b : ℚ) : ℚ := if a ≤ b then b else a

/-- `Math.min` (kernel-reducible form). -/
def jsMin (a b : ℚ) : ℚ := if a ≤ b then a else b

theorem jsMax_eq_max (a b : ℚ) : jsMax a b = max a b := by
  simp [jsMax, max_def]

theorem jsMin_eq_min (a b : ℚ) : jsMin a b = min a b := by
  simp [jsMin, min_def]

/-- The kind-specific `meta` payload of a status effect (only the keys the
source reads). -/
structure EffMeta where
  permanent : Bool := false
  ignoreSuppression : Bool := false
  perHp : Option ℚ := none
  bonus : Option ℚ := none
  tribe : Option String := none
  per : Option ℚ := none
  owner : Option Role := none
  perShield : Option ℚ := none
  bonusPct : Option ℚ := none
  atkMult : Option ℚ := none
  sourceInstanceId : Option String := none
  sourceOwner : Option Role := none
deriving DecidableEq, Repr

/-- A status effect / team effect record (server.js effect object shape). -/
structure StatusEffect where
  id : String
  ty : String
  value : ℚ
  turnsLeft : ℚ
  chance : Option ℚ := none
  filtersTargetUid : Option String := none
  meta : EffMeta := {}
deriving DecidableEq, Repr

/-- The per-turn action-usage record `card.turnActionUses`
(`{ key, skill, ult }`, key = `turnCounter:role`). -/
structure TurnUses where
  key : ℚ × Role
  skill : ℚ
  ult : ℚ
deriving DecidableEq, Repr

/-- A runtime card instance (shared_cards.js `instantiateCard` shape plus
the fields server.js adds on the fly). -/
structure Card where
  instanceId : String
  dbId : String
  tribe : String
  ctype : String
  rarity : String
  owner : Role
  atk : ℚ
  def_ : ℚ
  hp : ℚ
  maxHp : ℚ
  pa : ℚ
  maxPa : ℚ
  shield : ℚ
  statusEffects : List StatusEffect
  turnActionUses : Option TurnUses := none
  effectType : Option String := none
  isNecroSummon : Bool := false
  necromancerId : Option String := none
  necroOriginalOwner : Option Role := none
  controlledBy : Option Role := none
  controlOriginOwner : Option Role := none
  controlOriginLine : Option Line := none
  controlOriginIndex : Option ℕ := none
  controlReleaseTurn : Option ℚ := none
  controlImmune : Bool := false
  controlMoved : Bool := false
deriving DecidableEq, Repr

/-- Per-side player state (`createEmptyPlayerState` in server.js). -/
structure PlayerState where
  playerHp : ℚ
  playerMaxHp : ℚ
  playerDef : ℚ
  hand : List Card
  deck : List Card
  back : List (Option Card)
  front : List (Option Card)
  graveyard : List Card
  handCount : ℚ
  deckCount : ℚ
  pi : ℚ
  maxPi : ℚ
  username : String
  teamEffects : List StatusEffect
deriving DecidableEq, Repr

/-- `room.state`: the two player states. -/
structure BoardState where
  p1 : PlayerState
  p2 : PlayerState
deriving DecidableEq, Repr

/-- `room.match`: turn bookkeeping. -/
structure MatchState where
  activeRole : Role
  round : ℚ
  turnCounter : ℚ
  drawnP1 : Bool
  drawnP2 : Bool
  winner : Option Role := none
deriving DecidableEq, Repr

/-- A room holding one live match. -/
structure Room where
  state : BoardState
  match_ : MatchState
deriving DecidableEq, Repr

def BoardState.byRole (s : BoardState) : Role → PlayerState
  | .p1 => s.p1
  | .p2 => s.p2

def BoardState.setRole (s : BoardState) : Role → PlayerState → BoardState
  | .p1, ps => { s with p1 := ps }
  | .p2, ps => { s with p2 := ps }

def PlayerState.line (ps : PlayerState) : Line → List (Option Card)
  | .front => ps.front
  | .back => ps.back

def PlayerState.setLine (ps : PlayerState) : Line → List (Option Card) → PlayerState
  | .front, l => { ps with front := l }
  | .back, l => { ps with back := l }

/-- Board slot read, `ps[line][i]` (out-of-range reads give `none`). -/
def PlayerState.slot (ps : PlayerState) (ln : Line) (i : ℕ) : Option Card :=
  (ps.line ln).getD i none

/-- Board slot write, `ps[line][i] = c`. -/
def PlayerState.setSlot (ps : PlayerState) (ln : Line) (i : ℕ) (c : Option Card) :
    PlayerState :=
  ps.setLine ln ((ps.line ln).set i c)

@[simp] theorem BoardState.byRole_setRole_same (s : BoardState) (r : Role)
    (ps : PlayerState) : (s.setRole r ps).byRole r = ps := by
  cases r <;> rfl

@[simp] theorem PlayerState.line_setLine_same (ps : PlayerState) (ln : Line)
    (l : List (Option Card)) : (ps.setLine ln l).line ln = l := by
  cases ln <;> rfl

theorem PlayerState.slot_isSome_lt (ps : PlayerState) (ln : Line) (i : ℕ)
    (c : Card) (h : ps.slot ln i = some c) : i < (ps.line ln).length := by
  by_contra hn
  push_neg at hn
  rw [PlayerState.slot, List.getD_eq_getElem?_getD,
    List.getElem?_eq_none (by omega)] at h
  simp at h

theorem PlayerState.slot_setSlot_same (ps : PlayerState) (ln : Line) (i : ℕ)
    (c : Option Card) (h : i < (ps.line ln).length) :
    (ps.setSlot ln i c).slot ln i = c := by
  rw [PlayerState.setSlot, PlayerState.slot, PlayerState.line_setLine_same,
    List.getD_eq_getElem?_getD, List.getElem?_set_self (by omega)]
  rfl

@[simp] theorem BoardState.byRole_setRole_other (s : BoardState) (r r' : Role)
    (ps : PlayerState) (h : r ≠ r') : (s.setRole r ps).byRole r' = s.byRole r' := by
  cases r <;> cases r' <;> simp_all [BoardState.setRole, BoardState.byRole]

/-! ## Win detection (server.js `checkGameOver`) -/

/-- `checkGameOver` from server.js: if a winner is already recorded it is
returned; otherwise the `p1Hp <= 0` check runs first and the `p2Hp <= 0`
check runs second, each overwriting `room.match.winner`.  The mutated
room is returned alongside the result. -/
def checkGameOver (room : Room) : Room × Option Role :=
  match room.match_.winner with
  | some w => (room, some w)
  | none =>
    let p1Hp := room.state.p1.playerHp
    let p2Hp := room.state.p2.playerHp
    let w1 : Option Role := if p1Hp ≤ 0 then some .p2 else none
    let w2 : Option Role := if p2Hp ≤ 0 then some .p1 else w1
    ({ room with match_ := { room.match_ with winner := w2 } }, w2)

/-! ## Status effects (server.js `addStatusEffect` etc.) -/

/-- `addStatusEffect` from server.js: drop any effect with the same id,
push the new effect, and if the kind is `shield` add its value to the
card's stored shield total (clamped at 0 from below). -/
def addStatusEffect (card : Card) (effect : StatusEffect) : Card :=
  let effects := (card.statusEffects.filter fun e => e.id ≠ effect.id) ++ [effect]
  let shield :=
    if effect.ty = "shield" then jsMax 0 (card.shield + effect.value) else card.shield
  { card with statusEffects := effects, shield := shield }

/-- `removeStatusEffect` from server.js: if the kind is `shield` subtract
its value from the stored shield (clamped at 0), then drop the effect
(the source filters by object identity; here by full equality). -/
def removeStatusEffect (card : Card) (effect : StatusEffect) : Card :=
  let shield :=
    if effect.ty = "shield" then jsMax 0 (card.shield - effect.value) else card.shield
  { card with shield := shield,
              statusEffects := card.statusEffects.filter fun e => e ≠ effect }

/-- `addTeamEffect` from server.js. -/
def addTeamEffect (ps : PlayerState) (effect : StatusEffect) : PlayerState :=
  { ps with teamEffects :=
      (ps.teamEffects.filter fun e => e.id ≠ effect.id) ++ [effect] }

/-- `getTeamEffects` from server.js (all call sites pass a type). -/
def getTeamEffects (ps : PlayerState) (ty : String) : List StatusEffect :=
  ps.teamEffects.filter fun e => 0 < e.turnsLeft ∧ e.ty = ty

/-- `isSuppressed` from server.js. -/
def isSuppressed (s : BoardState) (role : Role) : Bool :=
  (getTeamEffects (s.byRole role) "suppress_temp_effects").length > 0

/-- `getActiveEffects` from server.js (all call sites pass a type). -/
def getActiveEffects (s : BoardState) (card : Card) (ty : String) :
    List StatusEffect :=
  let effects := card.statusEffects.filter fun e => 0 < e.turnsLeft
  let effects :=
    if isSuppressed s card.owner then
      effects.filter fun e => e.meta.ignoreSuppression ∨ e.meta.permanent
    else effects
  effects.filter fun e => e.ty = ty

/-- `getUtilityMultiplierForSide` from server.js. -/
def getUtilityMultiplierForSide (s : BoardState) (role : Role) : ℚ :=
  if (getTeamEffects (s.byRole role) "l14_util_double").length > 0 then 2 else 1

/-- `getEffectiveDef` from server.js: an active `def_override` effect forces
0, otherwise the stored base defense (0 when not an integer). -/
def getEffectiveDef (s : BoardState) (card : Card) : ℚ :=
  if (getActiveEffects s card "def_override").length > 0 then 0
  else jsInt card.def_ 0

/-- The cards present on one board line (`ps[line].filter(c => c)`). -/
def lineCards (ps : PlayerState) (ln : Line) : List Card :=
  (ps.line ln).filterMap id

/-- `getEffectiveAtk` from server.js: base attack plus flat bonuses,
missing-health bonuses and per-tribe bonuses, times the product of all
multiplicative bonuses, floored and clamped at 0.  (JS division by a zero
`perHp` yields `Infinity`; over `ℚ` it yields 0 — no effect in the code
carries a zero `perHp`.) -/
def getEffectiveAtk (s : BoardState) (card : Card) : ℚ :=
  let baseAtk := jsInt card.atk 0
  let flat := ((getActiveEffects s card "atk_flat").map fun e => jsOr e.value 0).sum
  let missingBonus :=
    ((getActiveEffects s card "atk_missing_hp").map fun e =>
      let perHp := e.meta.perHp.getD 30
      let bonus := e.meta.bonus.getD 10
      let missing := jsMax 0 (card.maxHp - card.hp)
      (⌊missing / perHp⌋ : ℚ) * bonus).sum
  let tribeBonus :=
    ((getActiveEffects s card "atk_per_tribe").map fun e =>
      match e.meta.tribe with
      | none => 0
      | some tribe =>
        if tribe = "" then 0
        else
          let per := e.meta.per.getD (jsOr e.value 0)
          let owner := e.meta.owner.getD card.owner
          let ps := s.byRole owner
          let count := ((lineCards ps .front).filter fun c => c.tribe = tribe).length
            + ((lineCards ps .back).filter fun c => c.tribe = tribe).length
          (count : ℚ) * per).sum
  let mult := ((getActiveEffects s card "atk_mult").map fun e => jsOr e.value 1).prod
  let mult := mult *
    ((getTeamEffects (s.byRole card.owner) "atk_mult").map fun e => jsOr e.value 1).prod
  let mult := mult *
    ((getActiveEffects s card "atk_shield_mult").map fun e =>
      let perShield := e.meta.perShield.getD 20
      let bonusPct := e.meta.bonusPct.getD 0
      let shieldBonus := (⌊card.shield / perShield⌋ : ℚ) * bonusPct
      jsOr e.value 1 + shieldBonus).prod
  let mult := mult *
    ((getActiveEffects s card "l16_dice").map fun e => e.meta.atkMult.getD 1).prod
  jsMax 0 (⌊(baseAtk + flat + missingBonus + tribeBonus) * mult⌋ : ℚ)

/-- `getDamageReduction` from server.js: additive, clamped to [0, 0.9]. -/
def getDamageReduction (s : BoardState) (card : Card) : ℚ :=
  let total := ((getActiveEffects s card "damage_reduction").map
    fun e => jsOr e.value 0).sum
  jsMin (9/10) (jsMax 0 total)

/-- `hasDamageImmunity` from server.js. -/
def hasDamageImmunity (s : BoardState) (card : Card) : Bool :=
  (getActiveEffects s card "damage_immunity").length > 0

/-- `getDamageTakenMultiplier` from server.js (includes `l15_runa` marks). -/
def getDamageTakenMultiplier (s : BoardState) (card : Card) : ℚ :=
  ((getActiveEffects s card "damage_taken_mult"
      ++ getActiveEffects s card "l15_runa").map fun e => jsOr e.value 1).prod

/-- `isPacifist` from server.js. -/
def isPacifist (s : BoardState) (card : Card) : Bool :=
  (getActiveEffects s card "pacifist").length > 0

/-- `findCardPosition` from server.js: scan the front line then the back
line, slots 0–4, for the instance id. -/
def findCardPosition (s : BoardState) (role : Role) (iid : String) :
    Option (Line × ℕ) :=
  let ps := s.byRole role
  match (List.range 5).find? (fun i => (ps.slot .front i).any
      fun c => c.instanceId = iid) with
  | some i => some (.front, i)
  | none =>
    match (List.range 5).find? (fun i => (ps.slot .back i).any
        fun c => c.instanceId = iid) with
    | some i => some (.back, i)
    | none => none

/-- `frontHasAny` from server.js. -/
def frontHasAny (s : BoardState) (role : Role) : Bool :=
  lineCards (s.byRole role) .front ≠ []

/-- `canAttackBack` from server.js (the basic-attack back-row rule). -/
def canAttackBack (attackerCard : Card) (s : BoardState) (enemyRole : Role) :
    Bool :=
  let t := attackerCard.ctype
  if t = "Ranged" ∨ t = "Support" then true
  else if t = "Melee" ∨ t = "Tank" then
    if (getTeamEffects (s.byRole attackerCard.owner) "l18_backrow_access").length
        > 0 then true
    else ¬ frontHasAny s enemyRole
  else false

/-- `applyPlayerDamageFromCardHit` from server.js: the player behind a
damaged card absorbs the card damage minus the player defense. -/
def applyPlayerDamageFromCardHit (s : BoardState) (ownerRole : Role)
    (cardDamage : ℚ) : BoardState × ℚ :=
  let ps := s.byRole ownerRole
  let defv := jsInt ps.playerDef 20
  let raw := jsInt cardDamage 0 - defv
  let finalDmg := if 0 < raw then raw else 0
  if 0 < finalDmg then
    let cur := jsInt ps.playerHp 1000
    (s.setRole ownerRole { ps with playerHp := jsMax 0 (cur - finalDmg) }, finalDmg)
  else (s, finalDmg)

/-- A death record (`deaths` entries produced during resolution). -/
structure DeathRec where
  role : Role
  line : Line
  index : ℕ
  card : Card
deriving DecidableEq, Repr

/-- Result record of `applyDamageToCard`. -/
structure DamageResult where
  dmg : ℚ
  deaths : List DeathRec
  resolvedRole : Option Role := none
  resolvedLine : Option Line := none
  resolvedIndex : Option ℕ := none
  resolvedCard : Option Card := none
deriving DecidableEq, Repr

/-- The mitigation chain of `applyDamageToCard` (server.js lines 569-575):
clamp at 0, pacifism of the source, immunity of the target, damage-taken
multiplier, additive damage-reduction, then `Math.floor` and a final
clamp at 0. -/
def mitigatedAmount (s : BoardState) (source target : Card) (amount : ℚ) : ℚ :=
  let finalDmg := jsMax 0 amount
  let finalDmg := if isPacifist s source then 0 else finalDmg
  let finalDmg := if hasDamageImmunity s target then 0 else finalDmg
  let finalDmg := finalDmg * getDamageTakenMultiplier s target
  let reduction := getDamageReduction s target
  let finalDmg := if 0 < reduction then finalDmg * (1 - reduction) else finalDmg
  jsMax 0 (⌊finalDmg⌋ : ℚ)

/-- The intercept re-targeting step of `applyDamageToCard`: if the nominal
target carries an active `intercept` effect whose interceptor is found on
the target owner's board, resolution re-targets to the interceptor's
position. -/
def resolveIntercept (s : BoardState) (targetRole : Role)
    (targetPos : Line × ℕ) (target0 : Card) : (Line × ℕ) × Card :=
  match getActiveEffects s target0 "intercept" with
  | [] => (targetPos, target0)
  | e :: _ =>
    match e.meta.sourceInstanceId with
    | none => (targetPos, target0)
    | some iid =>
      match findCardPosition s target0.owner iid with
      | none => (targetPos, target0)
      | some pos =>
        (pos, ((s.byRole targetRole).slot pos.1 pos.2).getD target0)

/-- The tail of `applyDamageToCard`: shield absorption (1:1, before
health), health subtraction, write-back of the mutated card, and the
death sweep of the target (push a copy with `hp = 0` to the graveyard,
clear the slot). -/
def applyDamageTail (s : BoardState) (targetRole : Role)
    (targetPos : Line × ℕ) (target : Card) (finalDmg : ℚ) :
    BoardState × DamageResult :=
  let (target, finalDmg) : Card × ℚ :=
    if 0 < finalDmg ∧ 0 < target.shield then
      let absorbed := jsMin target.shield finalDmg
      ({ target with shield := target.shield - absorbed }, finalDmg - absorbed)
    else (target, finalDmg)
  let target :=
    if 0 < finalDmg then { target with hp := jsMax 0 (target.hp - finalDmg) }
    else target
  let s := s.setRole targetRole
    ((s.byRole targetRole).setSlot targetPos.1 targetPos.2 (some target))
  if target.hp ≤ 0 then
    let targetPs := s.byRole targetRole
    let s := s.setRole targetRole
      { targetPs.setSlot targetPos.1 targetPos.2 none with
          graveyard := targetPs.graveyard ++ [{ target with hp := 0 }] }
    (s, { dmg := finalDmg,
          deaths := [⟨targetRole, targetPos.1, targetPos.2, { target with hp := 0 }⟩],
          resolvedRole := some targetRole, resolvedLine := some targetPos.1,
          resolvedIndex := some targetPos.2, resolvedCard := some target })
  else
    (s, { dmg := finalDmg, deaths := [],
          resolvedRole := some targetRole, resolvedLine := some targetPos.1,
          resolvedIndex := some targetPos.2, resolvedCard := some target })

/-- `applyDamageToCard` from server.js as called with
`{ skipRedirect: true }` (the skeleton-redirect block is skipped):
intercept re-targeting, the mitigation pipeline, then shield, health and
death handling.  JS mutates card objects in place; the model writes the
updated card back through its board position (identical whenever the
position still holds that object, which is the case on every path the
source can reach). -/
def applyDamageToCardNR (s : BoardState) (source : Card) (targetRole : Role)
    (targetPos : Line × ℕ) (amount : ℚ) : BoardState × DamageResult :=
  match (s.byRole targetRole).slot targetPos.1 targetPos.2 with
  | none => (s, { dmg := 0, deaths := [] })
  | some target0 =>
    let (targetPos, target) : (Line × ℕ) × Card :=
      resolveIntercept s targetRole targetPos target0
    let finalDmg : ℚ := mitigatedAmount s source target amount
    let target := ((s.byRole targetRole).slot targetPos.1 targetPos.2).getD target
    applyDamageTail s targetRole targetPos target finalDmg

/-- `applyDamageToCard` from server.js as called without `skipRedirect`:
like `applyDamageToCardNR` but with the skeleton-redirect block — an
active `damage_redirect_skeletons` effect shaves 20% off the damage and
spreads it evenly over the owner's other skeleton-tribe cards, each share
going through `applyDamageToCardNR` (the source passes
`skipRedirect: true` on these inner calls). -/
def applyDamageToCard (s : BoardState) (source : Card) (targetRole : Role)
    (targetPos : Line × ℕ) (amount : ℚ) : BoardState × DamageResult :=
  match (s.byRole targetRole).slot targetPos.1 targetPos.2 with
  | none => (s, { dmg := 0, deaths := [] })
  | some target0 =>
    let (targetPos, target) : (Line × ℕ) × Card :=
      resolveIntercept s targetRole targetPos target0
    let finalDmg : ℚ := mitigatedAmount s source target amount
    let (s, finalDmg) : BoardState × ℚ :=
      if 0 < finalDmg ∧
          (getActiveEffects s target "damage_redirect_skeletons").length > 0 then
        let owner := target.owner
        let ownerPs := s.byRole owner
        let skeletons :=
          ((lineCards ownerPs .front).filter fun c =>
            c.instanceId ≠ target.instanceId ∧ c.tribe = "Esqueletos")
          ++ ((lineCards ownerPs .back).filter fun c =>
            c.instanceId ≠ target.instanceId ∧ c.tribe = "Esqueletos")
        if skeletons.length > 0 then
          let redirectTotal := finalDmg * (2/10)
          let per := redirectTotal / (skeletons.length : ℚ)
          let s := skeletons.foldl (fun st skel =>
            match findCardPosition st owner skel.instanceId with
            | some pos => (applyDamageToCardNR st source owner pos per).1
            | none => st) s
          (s, finalDmg - redirectTotal)
        else (s, finalDmg)
      else (s, finalDmg)
    let target := ((s.byRole targetRole).slot targetPos.1 targetPos.2).getD target
    applyDamageTail s targetRole targetPos target finalDmg

/-- Outcome record of the `attack` intent handler. -/
structure AttackOutcome where
  dmgToTarget : ℚ
  dmgToAttacker : ℚ
  playerDmgToEnemy : ℚ
  playerDmgToMe : ℚ
  deaths : List DeathRec
deriving DecidableEq, Repr

/-- Write a mutated card object back at its board position, but only while
the slot still holds that instance (models JS in-place mutation of a card
object: mutations of an object no longer on the board do not change the
state). -/
def writeBackCard (s : BoardState) (role : Role) (pos : Line × ℕ)
    (card : Card) : BoardState :=
  match (s.byRole role).slot pos.1 pos.2 with
  | some c =>
    if c.instanceId = card.instanceId then
      s.setRole role ((s.byRole role).setSlot pos.1 pos.2 (some card))
    else s
  | none => s

/-- `handlePaSteal` from server.js: a guaranteed steal from an active
`next_attack_steal_pa` effect (which is then stripped from the source),
otherwise a chance-based steal from team `pa_steal_on_damage` effects
(`Math.max` over their chances, seeded with 0 — all chances in the source
are positive).  The random draw is the head of `rng`, consumed only on
the chance-based path, as in the source. -/
def handlePaSteal (s : BoardState) (source : Card) (sourceRole : Role)
    (sourcePos : Line × ℕ) (target : Card) (targetRole : Role)
    (targetPos : Line × ℕ) (rng : List ℚ) : BoardState × List ℚ :=
  if target.pa ≤ 0 then (s, rng)
  else
    let guaranteed := getActiveEffects s source "next_attack_steal_pa"
    if guaranteed.length > 0 then
      let s := writeBackCard s targetRole targetPos
        { target with pa := jsMax 0 (target.pa - 1) }
      let s := writeBackCard s sourceRole sourcePos
        { source with statusEffects :=
            source.statusEffects.filter fun e => e.ty ≠ "next_attack_steal_pa" }
      (s, rng)
    else
      let teamEffects := getTeamEffects (s.byRole source.owner) "pa_steal_on_damage"
      if teamEffects.length > 0 then
        let chance := (teamEffects.map fun e => e.chance.getD 0).foldl jsMax 0
        let r := rng.headD 0
        if r < chance then
          (writeBackCard s targetRole targetPos
            { target with pa := jsMax 0 (target.pa - 1) }, rng.tail)
        else (s, rng.tail)
      else (s, rng)

/-- The death double-check blocks of the attack handler (lines 1574-1584
of server.js, one for the attacker and one for the target): if the card
at the position has health ≤ 0 and is not already in the death list, move
it to its owner's graveyard, clear the slot and record the death. -/
def attackDeathSweep (s : BoardState) (deaths : List DeathRec) (role : Role)
    (pos : Line × ℕ) : BoardState × List DeathRec :=
  match (s.byRole role).slot pos.1 pos.2 with
  | some a =>
    if a.hp ≤ 0 ∧ ¬ deaths.any (fun d => d.card.instanceId = a.instanceId) then
      let me := s.byRole role
      (s.setRole role
        { me.setSlot pos.1 pos.2 none with
            graveyard := me.graveyard ++ [{ a with hp := 0 }] },
       deaths ++ [⟨role, pos.1, pos.2, { a with hp := 0 }⟩])
    else (s, deaths)
  | none => (s, deaths)

/-- The damage-resolution core of the attack handler: effective attack
minus effective defense; a positive difference is dealt to the target
(through the full pipeline, redirect enabled), a negative difference is
dealt back to the attacker (pipeline with redirect skipped), zero does
nothing; overflow card damage continues onto the owning player.  Returns
(state, deaths, dmgToTarget, dmgToAttacker, playerDmgToEnemy,
playerDmgToMe). -/
def attackCombat (s : BoardState) (role : Role) (fromPos toPos : Line × ℕ)
    (attacker target : Card) :
    BoardState × List DeathRec × ℚ × ℚ × ℚ × ℚ :=
  let enemy := enemyRoleOf role
  let atk := getEffectiveAtk s attacker
  let defv := getEffectiveDef s target
  let raw := atk - defv
  if 0 < raw then
    let (s, res) := applyDamageToCard s attacker enemy toPos raw
    let dmgToTarget := res.dmg
    let (s, pde) :=
      if 0 < dmgToTarget then applyPlayerDamageFromCardHit s enemy dmgToTarget
      else (s, 0)
    (s, res.deaths, dmgToTarget, 0, pde, 0)
  else if raw < 0 then
    let reflect := |raw|
    let (s, res) := applyDamageToCardNR s target role fromPos reflect
    let dmgToAttacker := res.dmg
    let (s, pdm) :=
      if 0 < dmgToAttacker then applyPlayerDamageFromCardHit s role dmgToAttacker
      else (s, 0)
    (s, res.deaths, 0, dmgToAttacker, 0, pdm)
  else (s, [], 0, 0, 0, 0)

/-- The post-combat bookkeeping of the attack handler, in source order:
the two death double-checks, `handlePaSteal`, the L-10 on-attack shield,
the L-12 infection spread, the L-9 front-row spill and the L-5 mark
lifesteal. -/
def attackAfterEffects (s : BoardState) (deaths : List DeathRec) (role : Role)
    (fromPos toPos : Line × ℕ) (attacker target : Card) (dmgToTarget : ℚ)
    (rng : List ℚ) (now : ℤ) : BoardState × List DeathRec :=
  let enemy := enemyRoleOf role
  let (s, deaths) := attackDeathSweep s deaths role fromPos
  let (s, deaths) := attackDeathSweep s deaths enemy toPos
  let targetObj :=
    match (s.byRole enemy).slot toPos.1 toPos.2 with
    | some c => c
    | none => target
  let (s, _rng) : BoardState × List ℚ :=
    if 0 < dmgToTarget then
      let attackerObj := ((s.byRole role).slot fromPos.1 fromPos.2).getD attacker
      handlePaSteal s attackerObj role fromPos targetObj enemy toPos rng
    else (s, rng)
  let s :=
    match (s.byRole role).slot fromPos.1 fromPos.2 with
    | some a =>
      if a.dbId = "L-10" ∧
          (getActiveEffects s a "l10_skill_active").length > 0 then
        s.setRole role ((s.byRole role).setSlot fromPos.1 fromPos.2
          (some (addStatusEffect a
            { id := "l10_skill_shield_" ++ a.instanceId ++ "_" ++ toString now,
              ty := "shield", value := 20, turnsLeft := 3 })))
      else s
    | none => s
  let attackerObj := ((s.byRole role).slot fromPos.1 fromPos.2).getD attacker
  let (s, deaths) : BoardState × List DeathRec :=
    if attacker.dbId = "L-12" ∧ 0 < dmgToTarget ∧
        (getActiveEffects s targetObj "infection").length > 0 then
      let infected :=
        ((lineCards (s.byRole enemy) .front).filter fun c =>
          (getActiveEffects s c "infection").length > 0)
        ++ ((lineCards (s.byRole enemy) .back).filter fun c =>
          (getActiveEffects s c "infection").length > 0)
      let spreadDamage : ℚ := (⌊dmgToTarget * (5/10)⌋ : ℚ)
      infected.foldl (fun acc c =>
        match findCardPosition acc.1 enemy c.instanceId with
        | some pos =>
          let (s2, r) := applyDamageToCard acc.1 attackerObj enemy pos spreadDamage
          (s2, acc.2 ++ r.deaths)
        | none => acc) (s, deaths)
    else (s, deaths)
  let (s, deaths) : BoardState × List DeathRec :=
    if attacker.dbId = "L-9" ∧
        (getActiveEffects s attackerObj "l9_spill").length > 0 ∧
        0 < dmgToTarget ∧ toPos.1 = Line.front then
      let spillDamage : ℚ := (⌊dmgToTarget * (3/10)⌋ : ℚ)
      (List.range 5).foldl (fun acc i =>
        match (acc.1.byRole enemy).slot .back i with
        | some _ =>
          let (s2, r) := applyDamageToCard acc.1 attackerObj enemy (.back, i)
            spillDamage
          (s2, acc.2 ++ r.deaths)
        | none => acc) (s, deaths)
    else (s, deaths)
  let s :=
    if 0 < dmgToTarget ∧
        ((getActiveEffects s targetObj "l5_mark").filter fun mark =>
          mark.meta.sourceOwner = some role).length > 0 then
      match (s.byRole role).slot fromPos.1 fromPos.2 with
      | some a =>
        let heal : ℚ := (⌊dmgToTarget * (2/10)⌋ : ℚ)
        s.setRole role ((s.byRole role).setSlot fromPos.1 fromPos.2
          (some { a with hp := jsMin a.maxHp (a.hp + heal) }))
      | none => s
    else s
  (s, deaths)

/-- The `attack` branch of the `game:intent` socket handler in server.js
(including the handler's winner / active-role / bounds / existence
guards, and the closing `checkGameOver` of `emitGameOver`).  Rejections
return `none` with the state as mutated so far (the source mutates card
objects in place before some early returns).  `rng` feeds
`Math.random()` draws and `now` feeds `Date.now()`. -/
def attackIntent (room : Room) (role : Role) (fromPos toPos : Line × ℕ)
    (rng : List ℚ) (now : ℤ) : Room × Option AttackOutcome :=
  if room.match_.winner ≠ none then (room, none)
  else if room.match_.activeRole ≠ role then (room, none)
  else if ¬(fromPos.2 < 5 ∧ toPos.2 < 5) then (room, none)
  else
    let enemy := enemyRoleOf role
    let s := room.state
    match (s.byRole role).slot fromPos.1 fromPos.2,
        (s.byRole enemy).slot toPos.1 toPos.2 with
    | some attacker0, some target =>
      let attacker := { attacker0 with owner := role }
      let s := s.setRole role
        ((s.byRole role).setSlot fromPos.1 fromPos.2 (some attacker))
      let pa := jsInt attacker.pa 0
      if pa < 2 then ({ room with state := s }, none)
      else if toPos.1 = Line.back ∧ ¬ canAttackBack attacker s enemy then
        ({ room with state := s }, none)
      else
        let attacker := { attacker with pa := pa - 2 }
        let s := s.setRole role
          ((s.byRole role).setSlot fromPos.1 fromPos.2 (some attacker))
        let (s, deaths, dmgToTarget, dmgToAttacker, pde, pdm) :=
          attackCombat s role fromPos toPos attacker target
        let (s, deaths) :=
          attackAfterEffects s deaths role fromPos toPos attacker target
            dmgToTarget rng now
        let room := { room with state := s }
        let (room, _) := checkGameOver room
        (room, some { dmgToTarget := dmgToTarget, dmgToAttacker := dmgToAttacker,
                      playerDmgToEnemy := pde, playerDmgToMe := pdm,
                      deaths := deaths })
    | _, _ => (room, none)

/-! ## Ability dispatch (server.js `applyAction` and helpers) -/

/-- `cardKey` from server.js: the per-turn idempotency token
`turnCounter:role`. -/
def cardKey (room : Room) (role : Role) : ℚ × Role :=
  (room.match_.turnCounter, role)

/-- `canUseAction` from server.js: reset the usage record when its key is
stale, enforce the per-turn limit (2 for the L-11 skill, otherwise 1) and
mark one use.  The record mutation happens in both outcomes, as in the
source; the mutated card is returned alongside the verdict. -/
def canUseAction (room : Room) (card : Card) (actionType : String) :
    Card × Bool :=
  let key := cardKey room card.owner
  let uses :=
    match card.turnActionUses with
    | some u => if u.key = key then u else { key := key, skill := 0, ult := 0 }
    | none => { key := key, skill := 0, ult := 0 }
  let limit : ℚ := if card.dbId = "L-11" ∧ actionType = "skill" then 2 else 1
  let current := if actionType = "skill" then uses.skill else uses.ult
  if limit ≤ current then ({ card with turnActionUses := some uses }, false)
  else
    let uses :=
      if actionType = "skill" then { uses with skill := uses.skill + 1 }
      else { uses with ult := uses.ult + 1 }
    ({ card with turnActionUses := some uses }, true)

/-- `getActionCost` from server.js. -/
def getActionCost (card : Card) (actionType : String) : ℚ :=
  if actionType = "skill" then (if card.dbId = "L-11" then 1 else 3)
  else if actionType = "ult" then (if card.dbId = "L-14" then 6 else 5)
  else 2

/-- Outcome of a skill/ultimate dispatch. -/
inductive ActionOutcome where
  | rejected (reason : String)
  | crashed
deriving DecidableEq, Repr

/-- `applyAction` from server.js, modelled to the point the source can
actually reach.  After the existence, action-point and per-turn-usage
checks (and the L-11 drunk check), line 1019 of server.js reads
`targetCard` — a `const` that is block-scoped to the `if` at lines
1001-1004 and therefore not in scope — so the function throws a
`ReferenceError` before the cost is paid, before the back-row check
completes and before any effect routine runs.  The thrown state keeps
every mutation made so far (the owner stamp and the usage mark recorded
by `canUseAction`); `crashed` marks the throw.  The target resolution of
lines 1000-1012 only computes a local value that is never used before
the throw and is omitted. -/
def applyAction (room : Room) (role : Role) (fromPos : Line × ℕ)
    (actionType : String) : Room × ActionOutcome :=
  let ps := room.state.byRole role
  match ps.slot fromPos.1 fromPos.2 with
  | none => (room, .rejected "no_card")
  | some source0 =>
    let source := { source0 with owner := role }
    let s := room.state.setRole role
      (ps.setSlot fromPos.1 fromPos.2 (some source))
    let cost := getActionCost source actionType
    if source.pa < cost then ({ room with state := s }, .rejected "no_pa")
    else
      let (source, ok) := canUseAction room source actionType
      let s := s.setRole role
        ((s.byRole role).setSlot fromPos.1 fromPos.2 (some source))
      if ¬ ok then ({ room with state := s }, .rejected "cooldown")
      else if actionType = "skill" ∧ source.dbId = "L-11" ∧
          ((getActiveEffects s source "damage_reduction").any fun e =>
            e.id.startsWith "l11_drunk") then
        ({ room with state := s }, .rejected "blocked")
      else
        ({ room with state := s }, .crashed)

/-- `canUseAction` only touches the usage record. -/
theorem canUseAction_fields (room : Room) (c : Card) (a : String) :
    (canUseAction room c a).1.dbId = c.dbId ∧
    (canUseAction room c a).1.pa = c.pa ∧
    (canUseAction room c a).1.statusEffects = c.statusEffects := by
  unfold canUseAction
  dsimp only
  split_ifs <;> exact ⟨rfl, rfl, rfl⟩

/-! ## State redaction (server.js `redactStateForRole`) -/

/-- `redactStateForRole` from server.js: deep-clone the full state and
empty the opponent's `hand` and `deck` lists (the `handCount` and
`deckCount` fields are left in place). -/
def redactStateForRole (fullState : BoardState) (viewerRole : Role) : BoardState :=
  let enemyRole := if viewerRole = .p1 then Role.p2 else Role.p1
  let enemyPs := fullState.byRole enemyRole
  fullState.setRole enemyRole { enemyPs with hand := [], deck := [] }

/-! ## Drawing and support actions (server.js `drawOne`, `executeSupportAction`) -/

/-- `drawOne` from server.js: shift the deck head into the hand and
refresh both counts; an empty deck yields no card and no change. -/
def drawOne (s : BoardState) (role : Role) : BoardState × Option Card :=
  let ps := s.byRole role
  match ps.deck with
  | [] => (s, none)
  | card :: rest =>
    (s.setRole role
      { ps with deck := rest, hand := ps.hand ++ [card],
                deckCount := (rest.length : ℚ),
                handCount := ((ps.hand ++ [card]).length : ℚ) }, some card)

/-- First empty board slot, scanning `front` then `back` in index order
(the `["front","back"].flatMap(...).find(s => !s.c)` idiom in server.js). -/
def firstEmptySlot (ps : PlayerState) : Option (Line × ℕ) :=
  match ps.front.findIdx? (fun c => c.isNone) with
  | some i => some (.front, i)
  | none =>
    match ps.back.findIdx? (fun c => c.isNone) with
    | some i => some (.back, i)
    | none => none

/-- The resolved `target` argument of `executeSupportAction`
(`target?.role`, `target?.card`, `target?.graveyardCard`). -/
structure ResolvedTarget where
  role : Option Role := none
  card : Option Card := none
  graveyardCard : Option Card := none
deriving DecidableEq, Repr

/-- Result of a support routine: `{ok:true}`, `{ok:false, reason}`, or a
branch this development does not model. -/
inductive SupportOutcome where
  | ok
  | fail (reason : String)
  | unmodelled
deriving DecidableEq, Repr

/-- One iteration of the L-17 ultimate steal loop (server.js lines
926-933): pick a random index into the opponent's hand, splice the card
out, reassign its owner and push it into the stealer's hand.  An
out-of-range index (never produced by `Math.random`) makes the splice a
no-op, matching the `if (stolen)` guard. -/
def l17StealStep (sourceOwner opponent : Role) (acc : BoardState × List ℚ) :
    BoardState × List ℚ :=
  let s := acc.1
  let rng := acc.2
  let oppState := s.byRole opponent
  let idx := (⌊rng.headD 0 * (oppState.hand.length : ℚ)⌋).toNat
  match oppState.hand[idx]? with
  | some stolen =>
    let s := s.setRole opponent { oppState with hand := oppState.hand.eraseIdx idx }
    let stolen := { stolen with owner := sourceOwner }
    let ownerPs := s.byRole sourceOwner
    (s.setRole sourceOwner { ownerPs with hand := ownerPs.hand ++ [stolen] }, rng.tail)
  | none => (s, rng.tail)

/-- `executeSupportAction` from server.js, restricted to the four branches
that move card instances between zones: L-13 skill (necromancy summon from
a graveyard), L-17 skill (self draw), L-17 ult (forced draw plus up to two
hand steals), and L-18 ult (board shuffle-in, hand mill and graveyard
theft).  `rng` is the stream of `Math.random()` values (each in `[0,1)`);
every other branch returns the state unchanged with `.unmodelled`. -/
def executeSupportAction (s : BoardState) (actionType : String) (source : Card)
    (target : ResolvedTarget) (rng : List ℚ) : BoardState × SupportOutcome :=
  if source.dbId = "L-13" ∧ actionType = "skill" then
    let originRole := target.role.getD source.owner
    let origin := s.byRole originRole
    let targetCard? : Option Card :=
      match target.graveyardCard with
      | some c => some c
      | none => origin.graveyard.head?
    match targetCard? with
    | none => (s, .fail "no_target")
    | some targetCard =>
      let r := targetCard.rarity.toUpper
      if ¬ (r = "COMMON" ∨ r = "RARE" ∨ r = "EPIC") then (s, .fail "rarity")
      else
        let ownerPs0 := s.byRole source.owner
        let necroCount :=
          ((lineCards ownerPs0 .front).filter (fun c => c.isNecroSummon)).length +
          ((lineCards ownerPs0 .back).filter (fun c => c.isNecroSummon)).length
        if 2 ≤ necroCount then (s, .fail "limit")
        else
          match firstEmptySlot ownerPs0 with
          | none => (s, .fail "no_space")
          | some pl =>
            let idx? := origin.graveyard.findIdx?
              (fun c => c.instanceId = targetCard.instanceId)
            let s :=
              match idx? with
              | some i =>
                s.setRole originRole
                  { origin with graveyard := origin.graveyard.eraseIdx i }
              | none => s
            let summoned := { targetCard with
              owner := source.owner, isNecroSummon := true,
              necromancerId := some source.instanceId,
              necroOriginalOwner := some targetCard.owner }
            let summoned := addStatusEffect summoned
              { id := "l13_necro_" ++ source.instanceId ++ "_" ++ summoned.instanceId,
                ty := "necro_control", value := 0, turnsLeft := 99 }
            let ownerPs := s.byRole source.owner
            (s.setRole source.owner (ownerPs.setSlot pl.1 pl.2 (some summoned)), .ok)
  else if source.dbId = "L-17" ∧ actionType = "skill" then
    ((drawOne s source.owner).1, .ok)
  else if source.dbId = "L-17" ∧ actionType = "ult" then
    let opponent := enemyRoleOf source.owner
    let s := (drawOne s opponent).1
    let steals := min 2 (s.byRole opponent).hand.length
    let loopOut : BoardState × List ℚ :=
      (List.range steals).foldl (fun acc _ => l17StealStep source.owner opponent acc)
        (s, rng)
    let s := loopOut.1
    let oppState := s.byRole opponent
    let s := s.setRole opponent { oppState with handCount := (oppState.hand.length : ℚ) }
    let ownerPs := s.byRole source.owner
    let s := s.setRole source.owner
      { ownerPs with handCount := (ownerPs.hand.length : ℚ) }
    (s, .ok)
  else if source.dbId = "L-18" ∧ actionType = "ult" then
    let effectTarget := target.card.getD source
    let enemyRole := enemyRoleOf source.owner
    let enemyState0 := s.byRole enemyRole
    let targetPos := findCardPosition s enemyRole effectTarget.instanceId
    let s :=
      match targetPos with
      | some pos =>
        let es := enemyState0.setSlot pos.1 pos.2 none
        s.setRole enemyRole { es with deck := effectTarget :: es.deck }
      | none => s
    let enemyState1 := s.byRole enemyRole
    let out1 : BoardState × List ℚ :=
      if 0 < enemyState1.hand.length then
        let idx := (⌊rng.headD 0 * (enemyState1.hand.length : ℚ)⌋).toNat
        match enemyState1.hand[idx]? with
        | some picked =>
          (s.setRole enemyRole
            { enemyState1 with hand := enemyState1.hand.eraseIdx idx,
                               deck := enemyState1.deck ++ [picked] }, rng.tail)
        | none =>
          (s.setRole enemyRole
            { enemyState1 with hand := enemyState1.hand.eraseIdx idx }, rng.tail)
      else (s, rng)
    let s := out1.1
    let rng := out1.2
    let enemyState2 := s.byRole enemyRole
    let s :=
      if 0 < enemyState2.graveyard.length then
        let idx := (⌊rng.headD 0 * (enemyState2.graveyard.length : ℚ)⌋).toNat
        match enemyState2.graveyard[idx]? with
        | some picked =>
          let s := s.setRole enemyRole
            { enemyState2 with graveyard := enemyState2.graveyard.eraseIdx idx }
          let picked := { picked with owner := source.owner }
          let ownerPs := s.byRole source.owner
          s.setRole source.owner { ownerPs with graveyard := ownerPs.graveyard ++ [picked] }
        | none =>
          s.setRole enemyRole
            { enemyState2 with graveyard := enemyState2.graveyard.eraseIdx idx }
      else s
    let enemyState3 := s.byRole enemyRole
    let s := s.setRole enemyRole
      { enemyState3 with handCount := (enemyState3.hand.length : ℚ),
                         deckCount := (enemyState3.deck.length : ℚ) }
    (s, .ok)
  else (s, .unmodelled)

/-! ## Zone-content multisets (spec §8 conservation property) -/

/-- The multiset of instance ids across one side's hand, deck, graveyard
and board slots — the conservation quantity of the spec's invariant. -/
def zoneIds (ps : PlayerState) : Multiset String :=
  (↑(ps.hand.map Card.instanceId) : Multiset String)
    + ↑(ps.deck.map Card.instanceId)
    + ↑(ps.graveyard.map Card.instanceId)
    + ↑((lineCards ps .front).map Card.instanceId)
    + ↑((lineCards ps .back).map Card.instanceId)

/-- The two-side union of zone instance ids. -/
def allIds (s : BoardState) : Multiset String := zoneIds s.p1 + zoneIds s.p2

/-! ## Turn machinery (server.js `endTurn` intent and `startTurn`) -/

/-- `resetPIForBoth` from server.js: both sides' resource pool and cap are
set to `MAX_PI = 7`. -/
def resetPIForBoth (s : BoardState) : BoardState :=
  { s with p1 := { s.p1 with pi := 7, maxPi := 7 },
           p2 := { s.p2 with pi := 7, maxPi := 7 } }

/-- `gainPAOnBoard` from server.js.  The loop visits the indices `0..4` of
the two fixed 5-slot rows and rewrites each occupied slot independently
(`card.pa = Math.min(maxPa, cur + gain)` with the `Number.isInteger`
guards), so it is a per-slot map over both rows. -/
def gainPACard (gain : ℚ) (card : Card) : Card :=
  { card with pa := jsMin (jsInt card.maxPa 11) (jsInt card.pa 0 + gain) }

def gainPAOnBoard (s : BoardState) (role : Role) (gain : ℚ) : BoardState :=
  let ps := s.byRole role
  let upd : Option Card → Option Card := Option.map (gainPACard gain)
  s.setRole role { ps with front := ps.front.map upd, back := ps.back.map upd }

/-- The per-card body of `applyStartTurnEffects`: the start-of-turn PA
bonus (team bonus plus card-targeted bonuses, clamped at `maxPa`), then
the `hp_drain_pct` drains, then the `infection` damage, in source order.
`s` is only consulted for suppression and team effects, which the loop
never modifies, so the per-card updates are independent. -/
def startTurnCardUpdate (s : BoardState) (teamPaBonusValue : ℚ) (card : Card) :
    Card :=
  let cardPaBonus := ((getActiveEffects s card "pa_bonus_start_card").filter
      fun e => e.filtersTargetUid = none ∨ e.filtersTargetUid = some card.instanceId
    ).foldl (fun a e => a + e.value) 0
  let total := teamPaBonusValue + cardPaBonus
  let card :=
    if 0 < total then
      { card with pa := jsMin (jsInt card.maxPa 11) (card.pa + total) }
    else card
  let card := (getActiveEffects s card "hp_drain_pct").foldl
    (fun c e => { c with hp := jsMax 0 (c.hp - ((⌊c.maxHp * e.value⌋ : ℤ) : ℚ)) }) card
  (getActiveEffects s card "infection").foldl
    (fun c e => { c with hp := jsMax 0 (c.hp - ((⌊e.value⌋ : ℤ) : ℚ)) }) card

/-- `applyStartTurnEffects` from server.js, as a per-slot map over the
side's two rows (each loop iteration only rewrites its own slot). -/
def applyStartTurnEffects (s : BoardState) (role : Role) : BoardState :=
  let ps := s.byRole role
  let teamPaBonusValue :=
    (getTeamEffects ps "pa_bonus_start").foldl (fun a e => a + e.value) 0
  let upd : Option Card → Option Card :=
    Option.map (startTurnCardUpdate s teamPaBonusValue)
  s.setRole role { ps with front := ps.front.map upd, back := ps.back.map upd }

/-- `cleanupDeadCards` from server.js: every slot whose card has `hp ≤ 0`
is cleared and a copy with `hp := 0` is pushed to the graveyard, front
slots (in index order) before back slots; slots are independent, so the
board part is a per-slot map.  The emitted deaths list only feeds events
and is not returned here. -/
def clearDead (oc : Option Card) : Option Card :=
  match oc with
  | some c => if c.hp ≤ 0 then none else some c
  | none => none

def cleanupDeadCards (s : BoardState) (role : Role) : BoardState :=
  let ps := s.byRole role
  let deadF := (lineCards ps .front).filter fun c => c.hp ≤ 0
  let deadB := (lineCards ps .back).filter fun c => c.hp ≤ 0
  s.setRole role
    { ps with front := ps.front.map clearDead, back := ps.back.map clearDead,
              graveyard := ps.graveyard ++ (deadF ++ deadB).map fun c => { c with hp := 0 } }

/-- The per-card effect decrement of `decrementStatusEffectsForRole`: walk
a snapshot of the effect list; each non-permanent effect's `turnsLeft`
drops to `max(0, t-1)` in place, and an effect reaching 0 is removed via
`removeStatusEffect` (which also unwinds a shield contribution).  The
source mutates and removes by object identity; as in `removeStatusEffect`,
identity is modelled by value equality. -/
def decStep (c : Card) (e : StatusEffect) : Card :=
  if e.meta.permanent then c
  else
    let e' := { e with turnsLeft := jsMax 0 (e.turnsLeft - 1) }
    let c := { c with statusEffects :=
      c.statusEffects.map fun x => if x = e then e' else x }
    if e'.turnsLeft ≤ 0 then removeStatusEffect c e' else c

def decrementCardEffects (card : Card) : Card :=
  card.statusEffects.foldl decStep card

/-- `decrementStatusEffectsForRole` from server.js: decrement every board
card's effects, then decrement the side's team effects, dropping
non-permanent ones that reach 0. -/
def decrementStatusEffectsForRole (s : BoardState) (role : Role) : BoardState :=
  let ps := s.byRole role
  let upd := Option.map decrementCardEffects
  let ps := { ps with front := ps.front.map upd, back := ps.back.map upd }
  let ps := { ps with teamEffects := ps.teamEffects.filterMap fun e =>
    if e.meta.permanent then some e
    else
      let e := { e with turnsLeft := jsMax 0 (e.turnsLeft - 1) }
      if 0 < e.turnsLeft then some e else none }
  s.setRole role ps

/-- The ten board slots in iteration order (`front` 0-4 then `back` 0-4). -/
def slotList : List (Line × ℕ) :=
  [(.front, 0), (.front, 1), (.front, 2), (.front, 3), (.front, 4),
   (.back, 0), (.back, 1), (.back, 2), (.back, 3), (.back, 4)]

/-- The twenty role-and-slot pairs `handleControlRelease` iterates. -/
def roleSlots : List (Role × Line × ℕ) :=
  (slotList.map fun p => (Role.p1, p)) ++ (slotList.map fun p => (Role.p2, p))

/-- One slot of the `handleControlRelease` sweep.  A card with a truthy
(non-null, non-zero) `controlReleaseTurn` that is due is returned to its
original owner: at the recorded origin position if free, else at the first
empty slot; when the original side's board is completely full the `if
(!place) continue` path skips the card entirely, leaving it under the
controller with its release markers intact. -/
def releaseStep (room : Room) (a : Role × Line × ℕ) : Room :=
  let r := a.1
  let ln := a.2.1
  let i := a.2.2
  let ps := room.state.byRole r
  match ps.slot ln i with
  | none => room
  | some card =>
    match card.controlReleaseTurn with
    | none => room
    | some rel =>
      if rel = 0 then room
      else if room.match_.turnCounter < rel then room
      else
        match card.controlOriginOwner with
        | none =>
          let card := { card with controlReleaseTurn := none, controlledBy := none }
          { room with state := room.state.setRole r (ps.setSlot ln i (some card)) }
        | some originalOwner =>
          let targetPs := room.state.byRole originalOwner
          let place0 : Option (Line × ℕ) :=
            match card.controlOriginLine, card.controlOriginIndex with
            | some l, some ix => some (l, ix)
            | _, _ => none
          let place : Option (Line × ℕ) :=
            match place0 with
            | some pos =>
              if (targetPs.slot pos.1 pos.2).isSome then firstEmptySlot targetPs
              else some pos
            | none => firstEmptySlot targetPs
          match place with
          | none => room
          | some pos =>
            let s := room.state.setRole r (ps.setSlot ln i none)
            let card := { card with
              owner := originalOwner, controlledBy := none,
              controlReleaseTurn := none, controlMoved := false }
            let tps := s.byRole originalOwner
            { room with state :=
                s.setRole originalOwner (tps.setSlot pos.1 pos.2 (some card)) }

/-- `handleControlRelease` from server.js: sweep both sides' slots in
order, releasing every due mind-controlled card. -/
def handleControlRelease (room : Room) : Room := roleSlots.foldl releaseStep room

/-- Write `room.match.drawnThisTurn[role]`. -/
def setDrawn (m : MatchState) (r : Role) (b : Bool) : MatchState :=
  match r with
  | .p1 => { m with drawnP1 := b }
  | .p2 => { m with drawnP2 := b }

/-- `startTurn` from server.js: control release, start-of-turn effects,
dead-card sweep, effect decrement, mark active, one automatic draw (the
emitted events are not modelled). -/
def startTurn (room : Room) (role : Role) : Room :=
  let room := handleControlRelease room
  let room := { room with state := applyStartTurnEffects room.state role }
  let room := { room with state := cleanupDeadCards room.state role }
  let room := { room with state := decrementStatusEffectsForRole room.state role }
  let m1 := { room.match_ with activeRole := role }
  let room := { room with match_ := setDrawn m1 role false }
  let room := { room with state := (drawOne room.state role).1,
                          match_ := setDrawn room.match_ role true }
  room

/-- The hand, deck and resource-pool components of a side, bundled for
invariance reasoning: board-only mutations preserve all four. -/
def sideAux (ps qs : PlayerState) : Prop :=
  ps.hand = qs.hand ∧ ps.deck = qs.deck ∧ ps.pi = qs.pi ∧ ps.maxPi = qs.maxPi

/-- The `endTurn` branch of the `game:intent` handler: only the active
side may end its turn; the ending side's board gains `END_TURN_PA_GAIN =
2` PA per card, the round counter and both resource pools reset exactly
when `p2` ends, the turn counter increments, and the opponent's turn
starts. -/
def endTurnIntent (room : Room) (role : Role) : Room :=
  if room.match_.activeRole = role then
    let room := { room with state := gainPAOnBoard room.state role 2 }
    let next := if role = .p1 then Role.p2 else Role.p1
    let room :=
      if role = .p2 then
        { room with match_ := { room.match_ with round := room.match_.round + 1 },
                    state := resetPIForBoth room.state }
      else room
    let room := { room with match_ :=
      { room.match_ with turnCounter := room.match_.turnCounter + 1 } }
    startTurn room next
  else room

end PvP

namespace PvP

/-! ## Theorems -/

/-- Sample states used by witnesses and counterexamples. -/
def emptyPlayer : PlayerState where
  playerHp := 1000
  playerMaxHp := 1000
  playerDef := 20
  hand := []
  deck := []
  back := [none, none, none, none, none]
  front := [none, none, none, none, none]
  graveyard := []
  handCount := 0
  deckCount := 0
  pi := 7
  maxPi := 7
  username := ""
  teamEffects := []

def freshMatch : MatchState where
  activeRole := .p1
  round := 1
  turnCounter := 1
  drawnP1 := true
  drawnP2 := false
  winner := none

/-- C9 counterexample.  Both sides at 0 HP, no prior winner: `checkGameOver`
declares `p1` the winner, i.e. the *later*-checked side `p2` the loser,
refuting the claim that the earlier-checked side (`p1`) loses. -/
theorem checkGameOver_double_zero_p2_loses :
    (checkGameOver
      { state := { p1 := { emptyPlayer with playerHp := 0 },
                   p2 := { emptyPlayer with playerHp := 0 } },
        match_ := freshMatch }).2 = some Role.p1 := by
  decide

/-- C9 (amended): with no winner recorded yet, `checkGameOver` declares the
side whose health is ≤ 0 the loser; when both are ≤ 0 in the same
resolution step the `p2` check overwrites the `p1` check, so the
later-checked side `p2` is the loser (winner `p1`). -/
theorem checkGameOver_order (room : Room) (h : room.match_.winner = none) :
    (checkGameOver room).2 =
      (if room.state.p2.playerHp ≤ 0 then some Role.p1
       else if room.state.p1.playerHp ≤ 0 then some Role.p2
       else none) := by
  unfold checkGameOver
  rw [h]

/-- Witness for `checkGameOver_order` at a concrete input. -/
theorem checkGameOver_order_witness :
    (checkGameOver
      { state := { p1 := { emptyPlayer with playerHp := 0 }, p2 := emptyPlayer },
        match_ := freshMatch }).2 = some Role.p2 := by
  rw [checkGameOver_order _ (by decide)]
  decide

/-- A plain card instance used in concrete scenarios. -/
def sampleCard : Card where
  instanceId := "c1"
  dbId := "C-1"
  tribe := "Esqueletos"
  ctype := "Melee"
  rarity := "COMMON"
  owner := .p1
  atk := 40
  def_ := 20
  hp := 100
  maxHp := 100
  pa := 2
  maxPa := 11
  shield := 0
  statusEffects := []

def shieldEffect20 : StatusEffect where
  id := "s1"
  ty := "shield"
  value := 20
  turnsLeft := 2

/-- C6 counterexample.  Re-applying the same shield effect (same id)
replaces it in the effect list, but `addStatusEffect` adds the new value
to the stored shield without removing the replaced effect's
contribution: after the second apply the effect set implies a shield of
20 while the card's stored shield total is 40. -/
theorem addStatusEffect_reapply_shield_accumulates :
    (addStatusEffect (addStatusEffect sampleCard shieldEffect20)
        shieldEffect20).statusEffects = [shieldEffect20] ∧
    (addStatusEffect (addStatusEffect sampleCard shieldEffect20)
        shieldEffect20).shield = 40 ∧
    (addStatusEffect (addStatusEffect sampleCard shieldEffect20)
        shieldEffect20).shield ≠
      (((addStatusEffect (addStatusEffect sampleCard shieldEffect20)
          shieldEffect20).statusEffects.filter fun e => e.ty = "shield").map
        StatusEffect.value).sum := by
  refine ⟨by decide, ?_, ?_⟩ <;>
    norm_num [addStatusEffect, sampleCard, shieldEffect20, jsMax]

/-- C6 (amended): `addStatusEffect` replaces by effect id — afterwards
exactly the new effect carries that id and all other effects are kept —
and for the `shield` kind the stored shield total is immediately
increased by the new effect's value (clamped at 0 from below); the
replaced effect's shield contribution is *not* subtracted, so the stored
total can exceed the total implied by the new effect set. -/
theorem addStatusEffect_replaces_by_id (card : Card) (effect : StatusEffect) :
    ((addStatusEffect card effect).statusEffects.filter
        fun e => e.id = effect.id) = [effect] ∧
    ((addStatusEffect card effect).statusEffects.filter
        fun e => e.id ≠ effect.id) =
      card.statusEffects.filter (fun e => e.id ≠ effect.id) ∧
    (addStatusEffect card effect).shield =
      (if effect.ty = "shield" then jsMax 0 (card.shield + effect.value)
       else card.shield) := by
  refine ⟨?_, ?_, rfl⟩
  · simp only [addStatusEffect, List.filter_append]
    rw [List.filter_eq_nil_iff.mpr, List.nil_append]
    · simp
    · intro e he
      simp only [List.mem_filter, decide_not] at he
      simpa using he.2
  · simp only [addStatusEffect, List.filter_append]
    rw [List.filter_filter]
    simp

/-! ## C2: per-viewer redaction -/

/-- C2: the snapshot for viewer `v` withholds the opponent's hand and deck
contents (emptied lists, counts kept in `handCount`/`deckCount`), keeps
the viewer's own hand and deck fully enumerated, keeps every other
opponent field (board lines, graveyard, resources, team effects), and is
a function only of the viewer-visible data: two states that agree on the
viewer's side and agree on the opponent's side after erasing hand and
deck (hence with equal counts) produce identical snapshots. -/
theorem redactStateForRole_spec (s s' : BoardState) (v : Role)
    (hown : s.byRole v = s'.byRole v)
    (hen : { s.byRole (enemyRoleOf v) with hand := [], deck := [] } =
           { s'.byRole (enemyRoleOf v) with hand := [], deck := [] }) :
    (redactStateForRole s v).byRole (enemyRoleOf v) =
      { s.byRole (enemyRoleOf v) with hand := [], deck := [] } ∧
    (redactStateForRole s v).byRole v = s.byRole v ∧
    redactStateForRole s v = redactStateForRole s' v := by
  cases v <;>
    cases s <;> cases s' <;>
      simp_all [redactStateForRole, BoardState.byRole, BoardState.setRole,
        enemyRoleOf]

/-! ## C5: the mitigation pipeline -/

/-- The damage pipeline as the spec words it (§4.2): pacifism check, then
immunity check, then the flat damage-taken multiplier, then the additive
damage-reduction (summed, capped at 90%), floored; shield absorption and
health subtraction are stated over this value in the C5 theorem. -/
def specPipelineDamage (s : BoardState) (source target : Card) (amount : ℚ) : ℚ :=
  if isPacifist s source then 0
  else if hasDamageImmunity s target then 0
  else jsMax 0 (⌊jsMax 0 amount * getDamageTakenMultiplier s target
      * (1 - getDamageReduction s target)⌋ : ℚ)

theorem getDamageReduction_nonneg (s : BoardState) (card : Card) :
    0 ≤ getDamageReduction s card := by
  rw [getDamageReduction, jsMin_eq_min, jsMax_eq_max]
  positivity

theorem specPipelineDamage_nonneg (s : BoardState) (source target : Card)
    (amount : ℚ) : 0 ≤ specPipelineDamage s source target amount := by
  rw [specPipelineDamage]
  split_ifs <;> first | rfl | (rw [jsMax_eq_max]; exact le_max_left 0 _)

/-- The mitigation chain of the source equals the spec-worded pipeline. -/
theorem mitigatedAmount_eq_spec (s : BoardState) (source target : Card)
    (amount : ℚ) :
    mitigatedAmount s source target amount =
      specPipelineDamage s source target amount := by
  have hr := getDamageReduction_nonneg s target
  unfold mitigatedAmount specPipelineDamage
  dsimp only
  by_cases hred2 : 0 < getDamageReduction s target
  · rw [if_pos hred2]
    split_ifs <;> norm_num [jsMax]
  · have hz : getDamageReduction s target = 0 := le_antisymm (not_lt.mp hred2) hr
    rw [if_neg hred2, hz]
    split_ifs <;> norm_num [jsMax]

/-- Tail behavior for a non-negative damage value and shield, when the hit
is non-lethal: shield absorbs 1:1 before health, the target keeps its
slot, no death is recorded. -/
theorem applyDamageTail_spec (s : BoardState) (targetRole : Role)
    (pos : Line × ℕ) (target : Card) (f : ℚ)
    (hsh : 0 ≤ target.shield) (hf0 : 0 ≤ f)
    (halive : 0 < target.hp - (f - jsMin target.shield f)) :
    (applyDamageTail s targetRole pos target f).2.dmg =
      f - jsMin target.shield f ∧
    (applyDamageTail s targetRole pos target f).2.deaths = [] ∧
    (applyDamageTail s targetRole pos target f).1 =
      s.setRole targetRole ((s.byRole targetRole).setSlot pos.1 pos.2
        (some { target with shield := target.shield - jsMin target.shield f,
                            hp := target.hp - (f - jsMin target.shield f) })) := by
  have hminle : jsMin target.shield f ≤ f := by
    rw [jsMin_eq_min]; exact min_le_right _ _
  have hmin0 : 0 ≤ jsMin target.shield f := by
    rw [jsMin_eq_min]; exact le_min hsh hf0
  unfold applyDamageTail
  dsimp only
  by_cases h1 : 0 < f ∧ 0 < target.shield
  · rw [if_pos h1]
    dsimp only
    by_cases h2 : 0 < f - jsMin target.shield f
    · rw [if_pos h2]
      have hmax : jsMax 0 (target.hp - (f - jsMin target.shield f)) =
          target.hp - (f - jsMin target.shield f) := by
        rw [jsMax_eq_max]; exact max_eq_right (le_of_lt halive)
      rw [hmax, if_neg (by dsimp only; linarith)]
      exact ⟨rfl, rfl, rfl⟩
    · have hz : f - jsMin target.shield f = 0 :=
        le_antisymm (not_lt.mp h2) (by linarith)
      rw [if_neg h2]
      rw [hz, sub_zero] at halive ⊢
      rw [if_neg (by dsimp only; linarith)]
      exact ⟨rfl, rfl, rfl⟩
  · rw [if_neg h1]
    dsimp only
    push_neg at h1
    by_cases hf : 0 < f
    · have hs0 : target.shield = 0 := le_antisymm (h1 hf) hsh
      have hmin : jsMin target.shield f = 0 := by
        rw [jsMin_eq_min, hs0]; exact min_eq_left (le_of_lt hf)
      rw [hmin, sub_zero] at halive ⊢
      have hmax : jsMax 0 (target.hp - f) = target.hp - f := by
        rw [jsMax_eq_max]; exact max_eq_right (le_of_lt halive)
      rw [if_pos hf, hmax, if_neg (by dsimp only; linarith), hs0, sub_zero]
      exact ⟨rfl, rfl, rfl⟩
    · have hfz : f = 0 := le_antisymm (not_lt.mp hf) hf0
      have hmin : jsMin target.shield f = 0 := by
        rw [jsMin_eq_min, hfz]; exact min_eq_right hsh
      rw [hmin] at halive ⊢
      rw [hfz] at halive ⊢
      simp only [sub_zero] at halive ⊢
      simp only [lt_self_iff_false, if_false]
      rw [if_neg (by linarith)]
      exact ⟨rfl, rfl, rfl⟩

/-- C5: with no intercept re-targeting and no skeleton-redirect effect on
the target, a damage application runs the pipeline in the spec's order —
pacifism, immunity, damage-taken multiplier, additive damage-reduction
capped at 90% (the floored result is `specPipelineDamage`) — then the
shield absorbs the damage 1:1 before health is subtracted.  Stated for a
non-lethal hit: the reported damage is the pipeline value minus the
shield absorption, the target keeps its slot, its shield drops by the
absorbed amount and its health by the remainder. -/
theorem applyDamageToCard_pipeline_order (s : BoardState) (source : Card)
    (targetRole : Role) (pos : Line × ℕ) (target : Card) (amount : ℚ)
    (ht : (s.byRole targetRole).slot pos.1 pos.2 = some target)
    (hint : getActiveEffects s target "intercept" = [])
    (hred : getActiveEffects s target "damage_redirect_skeletons" = [])
    (hshield : 0 ≤ target.shield)
    (halive : 0 < target.hp - (specPipelineDamage s source target amount
        - jsMin target.shield (specPipelineDamage s source target amount))) :
    (applyDamageToCard s source targetRole pos amount).2.dmg =
      specPipelineDamage s source target amount
        - jsMin target.shield (specPipelineDamage s source target amount) ∧
    ((applyDamageToCard s source targetRole pos amount).1.byRole
        targetRole).slot pos.1 pos.2 =
      some { target with
        shield := target.shield
          - jsMin target.shield (specPipelineDamage s source target amount),
        hp := target.hp - (specPipelineDamage s source target amount
          - jsMin target.shield (specPipelineDamage s source target amount)) } ∧
    (applyDamageToCard s source targetRole pos amount).2.deaths = [] := by
  have hlt := PlayerState.slot_isSome_lt _ _ _ _ ht
  have hd0 := specPipelineDamage_nonneg s source target amount
  have htail := applyDamageTail_spec s targetRole pos target
    (specPipelineDamage s source target amount) hshield hd0 halive
  simp only [applyDamageToCard, ht, resolveIntercept, hint,
    mitigatedAmount_eq_spec, hred, List.length_nil, gt_iff_lt,
    lt_self_iff_false, and_false, if_false, Option.getD_some]
  refine ⟨htail.1, ?_, htail.2.1⟩
  rw [htail.2.2, BoardState.byRole_setRole_same,
    PlayerState.slot_setSlot_same _ _ _ _ hlt]

theorem enemyRoleOf_ne (r : Role) : enemyRoleOf r ≠ r := by
  cases r <;> decide

theorem ne_enemyRoleOf (r : Role) : r ≠ enemyRoleOf r := by
  cases r <;> decide

/-- `applyDamageTail` only writes the target side. -/
theorem applyDamageTail_byRole_other (s : BoardState) (targetRole : Role)
    (pos : Line × ℕ) (t : Card) (f : ℚ) (r : Role) (h : targetRole ≠ r) :
    ((applyDamageTail s targetRole pos t f).1).byRole r = s.byRole r := by
  unfold applyDamageTail
  dsimp only
  split_ifs <;>
    simp only [BoardState.byRole_setRole_other _ _ _ _ h]

/-- `applyDamageToCardNR` only writes the target side. -/
theorem applyDamageToCardNR_byRole_other (s : BoardState) (source : Card)
    (targetRole : Role) (pos : Line × ℕ) (amount : ℚ) (r : Role)
    (h : targetRole ≠ r) :
    ((applyDamageToCardNR s source targetRole pos amount).1).byRole r =
      s.byRole r := by
  unfold applyDamageToCardNR
  rcases hslot : (s.byRole targetRole).slot pos.1 pos.2 with _ | c
  · rfl
  · exact applyDamageTail_byRole_other _ _ _ _ _ _ h

/-- `applyPlayerDamageFromCardHit` only writes the hit owner's side. -/
theorem applyPlayerDamageFromCardHit_byRole_other (s : BoardState)
    (ownerRole : Role) (dmg : ℚ) (r : Role) (h : ownerRole ≠ r) :
    ((applyPlayerDamageFromCardHit s ownerRole dmg).1).byRole r = s.byRole r := by
  unfold applyPlayerDamageFromCardHit
  dsimp only
  split_ifs <;>
    simp only [BoardState.byRole_setRole_other _ _ _ _ h]

theorem checkGameOver_state (room : Room) :
    (checkGameOver room).1.state = room.state := by
  unfold checkGameOver
  rcases room.match_.winner with _ | w <;> rfl

/-- A position whose card is alive is not swept. -/
theorem attackDeathSweep_alive (s : BoardState) (deaths : List DeathRec)
    (role : Role) (pos : Line × ℕ) (c : Card)
    (hslot : (s.byRole role).slot pos.1 pos.2 = some c) (hc : 0 < c.hp) :
    attackDeathSweep s deaths role pos = (s, deaths) := by
  unfold attackDeathSweep
  rw [hslot]
  dsimp only
  rw [if_neg]
  rintro ⟨h1, _⟩
  linarith

/-- The sweep only writes the swept side. -/
theorem attackDeathSweep_byRole_other (s : BoardState) (deaths : List DeathRec)
    (role : Role) (pos : Line × ℕ) (r : Role) (h : role ≠ r) :
    ((attackDeathSweep s deaths role pos).1).byRole r = s.byRole r := by
  unfold attackDeathSweep
  rcases hslot : (s.byRole role).slot pos.1 pos.2 with _ | a
  · rfl
  · dsimp only
    split_ifs <;>
      simp only [BoardState.byRole_setRole_other _ _ _ _ h]

/-- Combat core in the counter-damage case: when effective attack is
strictly below effective defense, the deficit is reflected onto the
attacker through `applyDamageToCardNR` (the pipeline with only the
skeleton redirect skipped), the forward damage is zero, and overflow
continues onto the attacking player. -/
theorem attackCombat_reflect (s : BoardState) (role : Role)
    (fromPos toPos : Line × ℕ) (attacker target : Card)
    (hraw : getEffectiveAtk s attacker - getEffectiveDef s target < 0) :
    attackCombat s role fromPos toPos attacker target =
      ((if 0 < (applyDamageToCardNR s target role fromPos
            |getEffectiveAtk s attacker - getEffectiveDef s target|).2.dmg then
          applyPlayerDamageFromCardHit
            (applyDamageToCardNR s target role fromPos
              |getEffectiveAtk s attacker - getEffectiveDef s target|).1 role
            (applyDamageToCardNR s target role fromPos
              |getEffectiveAtk s attacker - getEffectiveDef s target|).2.dmg
        else ((applyDamageToCardNR s target role fromPos
            |getEffectiveAtk s attacker - getEffectiveDef s target|).1, 0)).1,
       (applyDamageToCardNR s target role fromPos
          |getEffectiveAtk s attacker - getEffectiveDef s target|).2.deaths, 0,
       (applyDamageToCardNR s target role fromPos
          |getEffectiveAtk s attacker - getEffectiveDef s target|).2.dmg, 0,
       (if 0 < (applyDamageToCardNR s target role fromPos
            |getEffectiveAtk s attacker - getEffectiveDef s target|).2.dmg then
          applyPlayerDamageFromCardHit
            (applyDamageToCardNR s target role fromPos
              |getEffectiveAtk s attacker - getEffectiveDef s target|).1 role
            (applyDamageToCardNR s target role fromPos
              |getEffectiveAtk s attacker - getEffectiveDef s target|).2.dmg
        else ((applyDamageToCardNR s target role fromPos
            |getEffectiveAtk s attacker - getEffectiveDef s target|).1, 0)).2) := by
  unfold attackCombat
  dsimp only
  rw [if_neg (by linarith), if_pos hraw]

/-- With zero forward damage and a surviving defender, the after-effects
stage leaves the defending side untouched. -/
theorem attackAfterEffects_enemy_inv (s : BoardState) (deaths : List DeathRec)
    (role : Role) (fromPos toPos : Line × ℕ) (attacker target : Card)
    (rng : List ℚ) (now : ℤ)
    (htar : (s.byRole (enemyRoleOf role)).slot toPos.1 toPos.2 = some target)
    (hthp : 0 < target.hp) :
    (attackAfterEffects s deaths role fromPos toPos attacker target 0
        rng now).1.byRole (enemyRoleOf role) = s.byRole (enemyRoleOf role) := by
  have hne : role ≠ enemyRoleOf role := ne_enemyRoleOf role
  unfold attackAfterEffects
  dsimp only
  rw [attackDeathSweep_alive _ _ _ _ target
    (by rw [attackDeathSweep_byRole_other _ _ _ _ _ hne]; exact htar) hthp]
  dsimp only
  rw [show ((attackDeathSweep s deaths role fromPos).1.byRole
      (enemyRoleOf role)).slot toPos.1 toPos.2 = some target by
    rw [attackDeathSweep_byRole_other _ _ _ _ _ hne]; exact htar]
  simp only [lt_self_iff_false, false_and, and_false, if_false, ite_false]
  rcases h10 : (((attackDeathSweep s deaths role fromPos).1).byRole role).slot
      fromPos.1 fromPos.2 with _ | a <;>
    dsimp only
  · exact attackDeathSweep_byRole_other _ _ _ _ _ hne
  · split_ifs with hcond
    · rw [BoardState.byRole_setRole_other _ _ _ _ hne]
      exact attackDeathSweep_byRole_other _ _ _ _ _ hne
    · exact attackDeathSweep_byRole_other _ _ _ _ _ hne

/-- C1 (amended): in a basic-attack resolution where the attacker's
effective power is strictly below the defender's effective defense, the
defender's entire side is unchanged (no damage, no shield loss, no
player damage), the forward damage is zero, and the deficit is dealt back
to the attacker as self-damage *through the damage pipeline*: the
counter-damage is the result of an `applyDamageToCardNR` call (the
pipeline with only the skeleton redirect skipped), so the attacker's
immunity, damage-taken multiplier, damage-reduction and shield all apply
to it.  The intermediate states the source builds (owner stamp, action
point deduction) are named by equations `hA1`-`hS2`. -/
theorem attack_counter_damage_via_pipeline (room : Room) (role : Role)
    (fromPos toPos : Line × ℕ) (rng : List ℚ) (now : ℤ)
    (attacker0 target attacker1 attacker2 : Card) (s1 s2 : BoardState)
    (hw : room.match_.winner = none)
    (hactive : room.match_.activeRole = role)
    (hbounds : fromPos.2 < 5 ∧ toPos.2 < 5)
    (hatt : (room.state.byRole role).slot fromPos.1 fromPos.2 = some attacker0)
    (htar : (room.state.byRole (enemyRoleOf role)).slot toPos.1 toPos.2 =
      some target)
    (hpa : ¬ jsInt attacker0.pa 0 < 2)
    (hthp : 0 < target.hp)
    (hA1 : attacker1 = { attacker0 with owner := role })
    (hS1 : s1 = room.state.setRole role
      ((room.state.byRole role).setSlot fromPos.1 fromPos.2 (some attacker1)))
    (hA2 : attacker2 =
      { attacker0 with owner := role, pa := jsInt attacker0.pa 0 - 2 })
    (hS2 : s2 = s1.setRole role
      ((s1.byRole role).setSlot fromPos.1 fromPos.2 (some attacker2)))
    (hback : toPos.1 = Line.back →
      canAttackBack attacker1 s1 (enemyRoleOf role) = true)
    (hraw : getEffectiveAtk s2 attacker2 - getEffectiveDef s2 target < 0) :
    (attackIntent room role fromPos toPos rng now).1.state.byRole
        (enemyRoleOf role) = room.state.byRole (enemyRoleOf role) ∧
    ((attackIntent room role fromPos toPos rng now).2.map
      AttackOutcome.dmgToTarget) = some 0 ∧
    ((attackIntent room role fromPos toPos rng now).2.map
      AttackOutcome.playerDmgToEnemy) = some 0 ∧
    ((attackIntent room role fromPos toPos rng now).2.map
      AttackOutcome.dmgToAttacker) =
      some ((applyDamageToCardNR s2 target role fromPos
        |getEffectiveAtk s2 attacker2 - getEffectiveDef s2 target|).2.dmg) := by
  have hne : role ≠ enemyRoleOf role := ne_enemyRoleOf role
  unfold attackIntent
  rw [if_neg (by simp [hw]), if_neg (by simp [hactive]),
    if_neg (not_not_intro hbounds)]
  dsimp only
  rw [hatt, htar]
  dsimp only
  rw [if_neg hpa]
  rw [← hA1, ← hS1]
  rw [if_neg (by rintro ⟨hb, hnc⟩; exact hnc (hback hb))]
  rw [← hA2, ← hS2]
  rw [attackCombat_reflect s2 role fromPos toPos attacker2 target hraw]
  dsimp only
  have hS3 : ((if 0 < (applyDamageToCardNR s2 target role fromPos
        |getEffectiveAtk s2 attacker2 - getEffectiveDef s2 target|).2.dmg then
      applyPlayerDamageFromCardHit
        (applyDamageToCardNR s2 target role fromPos
          |getEffectiveAtk s2 attacker2 - getEffectiveDef s2 target|).1 role
        (applyDamageToCardNR s2 target role fromPos
          |getEffectiveAtk s2 attacker2 - getEffectiveDef s2 target|).2.dmg
    else ((applyDamageToCardNR s2 target role fromPos
        |getEffectiveAtk s2 attacker2 - getEffectiveDef s2 target|).1,
      0)).1).byRole (enemyRoleOf role) =
      room.state.byRole (enemyRoleOf role) := by
    have hnr : ((applyDamageToCardNR s2 target role fromPos
        |getEffectiveAtk s2 attacker2 - getEffectiveDef s2 target|).1).byRole
          (enemyRoleOf role) = room.state.byRole (enemyRoleOf role) := by
      rw [applyDamageToCardNR_byRole_other _ _ _ _ _ _ hne, hS2,
        BoardState.byRole_setRole_other _ _ _ _ hne, hS1,
        BoardState.byRole_setRole_other _ _ _ _ hne]
    split_ifs with hdm
    · rw [applyPlayerDamageFromCardHit_byRole_other _ _ _ _ hne]
      exact hnr
    · exact hnr
  refine ⟨?_, rfl, rfl, rfl⟩
  rw [checkGameOver_state]
  dsimp only
  rw [attackAfterEffects_enemy_inv _ _ _ _ _ _ _ _ _
    (by rw [hS3]; exact htar) hthp]
  exact hS3

/-- Scenario A cast: an attacker with attack 40 and 2 action points and a
defender with defense 60, both on the front line of a fresh match. -/
def attackerC1 : Card := sampleCard

def defenderC1 : Card :=
  { sampleCard with instanceId := "d1", owner := .p2, def_ := 60 }

def roomC1 : Room :=
  { state :=
      { p1 := { emptyPlayer with
          front := [some attackerC1, none, none, none, none] },
        p2 := { emptyPlayer with
          front := [some defenderC1, none, none, none, none] } },
    match_ := freshMatch }

def roomC1s1 : BoardState :=
  roomC1.state.setRole .p1 ((roomC1.state.byRole .p1).setSlot Line.front 0
    (some { attackerC1 with owner := Role.p1 }))

def roomC1s2 : BoardState :=
  roomC1s1.setRole .p1 ((roomC1s1.byRole .p1).setSlot Line.front 0
    (some { attackerC1 with owner := Role.p1,
                            pa := jsInt attackerC1.pa 0 - 2 }))

/-- Witness for `attack_counter_damage_via_pipeline` (scenario A): attack
40 against defense 60 in a fresh match deals zero damage to the defender,
leaves the defending side unchanged, and deals exactly 20 counter-damage
to the attacker. -/
theorem attack_counter_damage_via_pipeline_witness :
    ((attackIntent roomC1 .p1 (.front, 0) (.front, 0) [] 0).2.map
      AttackOutcome.dmgToTarget) = some 0 ∧
    ((attackIntent roomC1 .p1 (.front, 0) (.front, 0) [] 0).2.map
      AttackOutcome.dmgToAttacker) = some 20 ∧
    (attackIntent roomC1 .p1 (.front, 0) (.front, 0) [] 0).1.state.byRole .p2 =
      roomC1.state.byRole .p2 := by
  have hatk : getEffectiveAtk roomC1s2
      { attackerC1 with owner := Role.p1, pa := jsInt attackerC1.pa 0 - 2 }
      = 40 := by
    simp [getEffectiveAtk, getActiveEffects, isSuppressed, getTeamEffects,
      lineCards, roomC1s2, roomC1s1, roomC1, attackerC1, defenderC1,
      sampleCard, emptyPlayer, BoardState.byRole, BoardState.setRole,
      PlayerState.slot, PlayerState.setSlot, PlayerState.line,
      PlayerState.setLine, jsMax, jsMin, jsInt, jsOr]
  have hdef : getEffectiveDef roomC1s2 defenderC1 = 60 := by
    simp [getEffectiveDef, getActiveEffects, isSuppressed, getTeamEffects,
      roomC1s2, roomC1s1, roomC1, attackerC1, defenderC1, sampleCard,
      emptyPlayer, BoardState.byRole, BoardState.setRole, PlayerState.slot,
      PlayerState.setSlot, PlayerState.line, PlayerState.setLine, jsInt]
  have hnr : (applyDamageToCardNR roomC1s2 defenderC1 .p1 (.front, 0)
      |getEffectiveAtk roomC1s2
        { attackerC1 with owner := Role.p1, pa := jsInt attackerC1.pa 0 - 2 }
        - getEffectiveDef roomC1s2 defenderC1|).2.dmg = 20 := by
    rw [hatk, hdef]
    simp [applyDamageToCardNR, resolveIntercept, mitigatedAmount,
      applyDamageTail, getActiveEffects, isSuppressed, getTeamEffects,
      isPacifist, hasDamageImmunity, getDamageTakenMultiplier,
      getDamageReduction, roomC1s2, roomC1s1, roomC1, attackerC1, defenderC1,
      sampleCard, emptyPlayer, BoardState.byRole, BoardState.setRole,
      PlayerState.slot, PlayerState.setSlot, PlayerState.line,
      PlayerState.setLine, jsMax, jsMin, jsInt, jsOr] <;> norm_num
  have h := attack_counter_damage_via_pipeline roomC1 .p1 (.front, 0)
    (.front, 0) [] 0 attackerC1 defenderC1
    { attackerC1 with owner := Role.p1 }
    { attackerC1 with owner := Role.p1, pa := jsInt attackerC1.pa 0 - 2 }
    roomC1s1 roomC1s2
    rfl rfl (by norm_num) rfl rfl
    (by norm_num [jsInt, attackerC1, sampleCard])
    (by norm_num [defenderC1, sampleCard])
    rfl rfl rfl rfl
    (fun hb => Line.noConfusion hb)
    (by rw [hatk, hdef]; norm_num)
  refine ⟨h.2.1, ?_, h.1⟩
  rw [h.2.2.2, hnr]

/-- C3 (code bug): every skill/ultimate dispatch that passes the
action-point and per-turn-usage checks (here away from the L-11 drunk
special case) aborts with the `targetCard` ReferenceError of server.js
line 1019: no effect routine ever runs, the cost is never paid, and the
per-turn usage mark recorded by `canUseAction` is left in place — the
dispatch errors with the state already changed, so the atomic
cost-and-usage refund the spec requires can never happen. -/
theorem applyAction_crashes_with_usage_marked (room : Room) (role : Role)
    (fromPos : Line × ℕ) (actionType : String) (source0 : Card)
    (hsrc : (room.state.byRole role).slot fromPos.1 fromPos.2 = some source0)
    (hcost : ¬ source0.pa <
      getActionCost { source0 with owner := role } actionType)
    (hok : (canUseAction room { source0 with owner := role } actionType).2 =
      true)
    (hdrunk : ¬ (actionType = "skill" ∧ source0.dbId = "L-11")) :
    (applyAction room role fromPos actionType).2 = .crashed ∧
    ((applyAction room role fromPos actionType).1.state.byRole role).slot
        fromPos.1 fromPos.2 =
      some (canUseAction room { source0 with owner := role } actionType).1 ∧
    (canUseAction room { source0 with owner := role } actionType).1.pa =
      source0.pa := by
  have hlt := PlayerState.slot_isSome_lt _ _ _ _ hsrc
  unfold applyAction
  dsimp only
  rw [hsrc]
  dsimp only
  rw [if_neg hcost, if_neg (by rw [hok]; simp)]
  rw [if_neg (by
    rintro ⟨ha, hd, _⟩
    exact hdrunk ⟨ha,
      ((canUseAction_fields room { source0 with owner := role }
        actionType).1).symm.trans hd⟩)]
  refine ⟨rfl, ?_, (canUseAction_fields room _ actionType).2.1⟩
  dsimp only
  rw [BoardState.byRole_setRole_same, BoardState.byRole_setRole_same]
  rw [PlayerState.slot_setSlot_same]
  rw [PlayerState.setSlot, PlayerState.line_setLine_same, List.length_set]
  exact hlt

def cardC3 : Card := { sampleCard with pa := 5 }

def roomC3 : Room :=
  { state :=
      { p1 := { emptyPlayer with
          front := [some cardC3, none, none, none, none] },
        p2 := emptyPlayer },
    match_ := freshMatch }

/-- Witness for `applyAction_crashes_with_usage_marked`: a fresh card with
5 action points dispatching its skill — the dispatch crashes with the
usage mark recorded and the action points untouched. -/
theorem applyAction_crashes_with_usage_marked_witness :
    (applyAction roomC3 .p1 (.front, 0) "skill").2 = .crashed ∧
    ((applyAction roomC3 .p1 (.front, 0) "skill").1.state.byRole .p1).slot
        .front 0 =
      some (canUseAction roomC3 { cardC3 with owner := Role.p1 } "skill").1 ∧
    (canUseAction roomC3 { cardC3 with owner := Role.p1 } "skill").1.pa =
      cardC3.pa := by
  exact applyAction_crashes_with_usage_marked roomC3 .p1 (.front, 0) "skill"
    cardC3 rfl
    (by simp [getActionCost, cardC3, sampleCard] <;> norm_num)
    (by simp [canUseAction, cardKey, cardC3, sampleCard, roomC3, freshMatch] <;>
      norm_num)
    (by simp [cardC3, sampleCard])

def immEffect : StatusEffect :=
  { id := "imm", ty := "damage_immunity", value := 1, turnsLeft := 1 }

def attackerC1imm : Card := { sampleCard with statusEffects := [immEffect] }

def roomC1imm : Room :=
  { state :=
      { p1 := { emptyPlayer with
          front := [some attackerC1imm, none, none, none, none] },
        p2 := { emptyPlayer with
          front := [some defenderC1, none, none, none, none] } },
    match_ := freshMatch }

/-- C1 counterexample.  An attacker with attack 40 and an active
damage-immunity effect basic-attacks a defender with defense 60.  The
claim says the 20-point deficit is dealt back to the attacker without
the mitigation pipeline (so immunity would not apply and the attacker
would take 20).  The code routes the counter-damage through
`applyDamageToCard`: the attacker takes 0 and its health is unchanged —
the claimed 20 counter-damage does not occur. -/
theorem attack_counter_damage_mitigated_counterexample :
    ((attackIntent roomC1imm .p1 (.front, 0) (.front, 0) [] 0).2.map
      AttackOutcome.dmgToAttacker) = some 0 ∧
    ¬ (((attackIntent roomC1imm .p1 (.front, 0) (.front, 0) [] 0).2.map
      AttackOutcome.dmgToAttacker) = some 20) := by
  refine ⟨?_, ?_⟩ <;>
    simp [attackIntent, attackCombat, attackAfterEffects, attackDeathSweep,
      handlePaSteal, writeBackCard, checkGameOver, applyDamageToCardNR,
      applyDamageToCard, resolveIntercept, mitigatedAmount, applyDamageTail,
      applyPlayerDamageFromCardHit, getEffectiveAtk, getEffectiveDef,
      getActiveEffects, isSuppressed, getTeamEffects, isPacifist,
      hasDamageImmunity, getDamageTakenMultiplier, getDamageReduction,
      lineCards, findCardPosition, canAttackBack, frontHasAny, enemyRoleOf,
      roomC1imm, attackerC1imm, immEffect, defenderC1, sampleCard,
      emptyPlayer, freshMatch, BoardState.byRole, BoardState.setRole,
      PlayerState.slot, PlayerState.setSlot, PlayerState.line,
      PlayerState.setLine, jsMax, jsMin, jsInt, jsOr] <;>
    norm_num

/-- A defender carrying an active shield of 20 (scenario B). -/
def shieldedCard : Card :=
  { sampleCard with instanceId := "t1", owner := .p2, shield := 20,
                    statusEffects := [shieldEffect20] }

def boardC5 : BoardState :=
  { p1 := emptyPlayer,
    p2 := { emptyPlayer with front := [some shieldedCard, none, none, none, none] } }

/-- Witness for `applyDamageToCard_pipeline_order` (scenario B): a card
with shield 20 and 100 health taking a post-mitigation hit of 35 ends
with shield 0 and health 85 (reduced by exactly 15). -/
theorem applyDamageToCard_pipeline_order_witness :
    (applyDamageToCard boardC5 sampleCard .p2 (.front, 0) 35).2.dmg = 15 ∧
    ((applyDamageToCard boardC5 sampleCard .p2 (.front, 0) 35).1.byRole
        .p2).slot .front 0 =
      some { shieldedCard with shield := 0, hp := 85 } := by
  have hspec : specPipelineDamage boardC5 sampleCard shieldedCard 35 = 35 := by
    simp [specPipelineDamage, isPacifist, hasDamageImmunity,
      getDamageTakenMultiplier, getDamageReduction, getActiveEffects,
      isSuppressed, getTeamEffects, boardC5, shieldedCard, shieldEffect20,
      sampleCard, emptyPlayer, BoardState.byRole, jsMax, jsMin, jsOr] <;>
      norm_num
  have h := applyDamageToCard_pipeline_order boardC5 sampleCard .p2 (.front, 0)
    shieldedCard 35 rfl rfl rfl
    (by simp [shieldedCard, sampleCard] <;> norm_num)
    (by rw [hspec]; simp [shieldedCard, sampleCard, jsMin] <;> norm_num)
  rw [hspec] at h
  refine ⟨?_, ?_⟩
  · rw [h.1]
    simp [shieldedCard, sampleCard, jsMin] <;> norm_num
  · rw [h.2.1]
    simp [shieldedCard, sampleCard, jsMin, Card.mk.injEq] <;> norm_num

/-! ## Zone conservation (claim on `executeSupportAction`) -/

@[simp] theorem BoardState.setRole_byRole (s : BoardState) (r : Role) :
    s.setRole r (s.byRole r) = s := by
  cases r <;> rfl

theorem multiset_coe_append {β : Type} (l1 l2 : List β) :
    (↑(l1 ++ l2) : Multiset β) = ↑l1 + ↑l2 := rfl

theorem multiset_coe_cons {β : Type} (l : List β) (a : β) :
    (↑(a :: l) : Multiset β) = {a} + ↑l := by
  rw [Multiset.singleton_add]
  rfl

theorem multiset_map_eraseIdx {α β : Type} (l : List α) (i : ℕ) (x : α) (f : α → β)
    (h : l[i]? = some x) :
    (↑((l.eraseIdx i).map f) : Multiset β) + {f x} = ↑(l.map f) := by
  have hi : i < l.length := by
    by_contra hn
    push_neg at hn
    rw [List.getElem?_eq_none hn] at h
    simp at h
  have hx : l[i] = x := by
    rw [List.getElem?_eq_getElem hi] at h
    exact Option.some.inj h
  have hdec : l.map f = (l.take i).map f ++ f x :: (l.drop (i+1)).map f := by
    conv_lhs => rw [← List.take_append_drop i l, ← List.getElem_cons_drop l i hi]
    rw [hx, List.map_append, List.map_cons]
  rw [List.eraseIdx_eq_take_drop_succ, hdec, List.map_append,
    multiset_coe_append, multiset_coe_append, multiset_coe_cons]
  abel

theorem allIds_pair (s : BoardState) (r r' : Role) (h : r ≠ r') :
    allIds s = zoneIds (s.byRole r) + zoneIds (s.byRole r') := by
  cases r <;> cases r' <;> simp_all [allIds, BoardState.byRole] <;> exact add_comm _ _

theorem allIds_setRole_handCount (s : BoardState) (r : Role) (v : ℚ) :
    allIds (s.setRole r { s.byRole r with handCount := v }) = allIds s := by
  cases r <;> rfl

theorem l17StealStep_allIds (so opp : Role) (h : opp ≠ so)
    (acc : BoardState × List ℚ) :
    allIds (l17StealStep so opp acc).1 = allIds acc.1 := by
  obtain ⟨s, rng⟩ := acc
  unfold l17StealStep
  dsimp only
  split
  · rename_i stolen hx
    rw [allIds_pair _ opp so h, allIds_pair s opp so h,
      BoardState.byRole_setRole_other _ so opp _ (Ne.symm h),
      BoardState.byRole_setRole_same, BoardState.byRole_setRole_same,
      BoardState.byRole_setRole_other _ opp so _ h]
    have hkey := multiset_map_eraseIdx (s.byRole opp).hand _ stolen Card.instanceId hx
    simp only [zoneIds, lineCards, PlayerState.line, List.map_append, List.map_cons,
      List.map_nil, multiset_coe_append, multiset_coe_cons, Multiset.coe_nil]
    rw [← hkey]
    abel
  · rfl

theorem foldl_allIds {α : Type} (f : BoardState × List ℚ → α → BoardState × List ℚ)
    (hf : ∀ acc a, allIds (f acc a).1 = allIds acc.1) :
    ∀ (l : List α) (acc : BoardState × List ℚ),
      allIds ((l.foldl f acc).1) = allIds acc.1 := by
  intro l
  induction l with
  | nil => intro acc; rfl
  | cons a t ih => intro acc; rw [List.foldl_cons, ih, hf]

theorem drawOne_allIds (s : BoardState) (role : Role) :
    allIds (drawOne s role).1 = allIds s := by
  unfold drawOne
  dsimp only
  split
  · rfl
  · rename_i card rest hdeck
    rw [allIds_pair _ role (enemyRoleOf role) (ne_enemyRoleOf role),
      allIds_pair s role (enemyRoleOf role) (ne_enemyRoleOf role),
      BoardState.byRole_setRole_same,
      BoardState.byRole_setRole_other _ role (enemyRoleOf role) _ (ne_enemyRoleOf role)]
    simp only [zoneIds, lineCards, PlayerState.line, hdeck, List.map_append,
      List.map_cons, List.map_nil, multiset_coe_append, multiset_coe_cons,
      Multiset.coe_nil]
    abel

/-- An L-17 card owned by `p1`, on `p1`'s front row in the C4 scenario. -/
def srcL17 : Card := { sampleCard with instanceId := "l17", dbId := "L-17" }

/-- A `p2` hand card that the L-17 ultimate steals. -/
def stolenH2 : Card := { sampleCard with instanceId := "h2", owner := .p2 }

/-- C4 scenario: `p1` has the L-17 card on board, `p2` has one hand card
and an empty deck. -/
def boardC4 : BoardState :=
  { p1 := { emptyPlayer with front := [some srcL17, none, none, none, none] },
    p2 := { emptyPlayer with hand := [stolenH2], handCount := 1 } }

/-- C4 counterexample.  A single L-17 ultimate moves the instance `h2` out
of `p2`'s zones into `p1`'s hand: the per-side multiset of instance ids is
not conserved, refuting the claim that no instance is ever moved into the
other side's zones. -/
theorem executeSupportAction_l17_ult_crosses_sides :
    zoneIds ((executeSupportAction boardC4 "ult" srcL17 {} [0]).1.byRole .p2)
      ≠ zoneIds (boardC4.byRole .p2) ∧
    ((executeSupportAction boardC4 "ult" srcL17 {} [0]).1.byRole .p1).hand.map
      Card.instanceId = ["h2"] := by
  constructor
  · simp [executeSupportAction, drawOne, l17StealStep, boardC4, srcL17,
      stolenH2, sampleCard, emptyPlayer, BoardState.byRole, BoardState.setRole,
      enemyRoleOf, zoneIds, lineCards, PlayerState.line, Nat.min_def,
      List.range_succ]
  · simp [executeSupportAction, drawOne, l17StealStep, boardC4, srcL17,
      stolenH2, sampleCard, emptyPlayer, BoardState.byRole, BoardState.setRole,
      enemyRoleOf, Nat.min_def, List.range_succ]

/-- C4 (amended): every L-17 support routine conserves the two-side union
of instance ids across hand, deck, graveyard and both board rows (for any
state, target and randomness stream), even though the ultimate moves up to
two stolen instances across sides, so per-side conservation fails. -/
theorem executeSupportAction_l17_conserves_allIds (s : BoardState)
    (actionType : String) (source : Card) (target : ResolvedTarget)
    (rng : List ℚ) (h : source.dbId = "L-17") :
    allIds (executeSupportAction s actionType source target rng).1 = allIds s := by
  unfold executeSupportAction
  rw [if_neg (by simp [h])]
  by_cases hsk : actionType = "skill"
  · rw [if_pos ⟨h, hsk⟩]
    exact drawOne_allIds s source.owner
  · rw [if_neg (by simp [hsk])]
    by_cases hu : actionType = "ult"
    · rw [if_pos ⟨h, hu⟩]
      dsimp only
      rw [allIds_setRole_handCount, allIds_setRole_handCount,
        foldl_allIds _ (fun acc _ => l17StealStep_allIds source.owner
          (enemyRoleOf source.owner) (enemyRoleOf_ne source.owner) acc)]
      dsimp only
      rw [drawOne_allIds]
    · rw [if_neg (by simp [hu]), if_neg (by simp [h])]

/-- Witness for `executeSupportAction_l17_conserves_allIds` at a concrete
input: the C4 scenario board before and after the ultimate carries the
same union of instance ids. -/
theorem executeSupportAction_l17_conserves_allIds_witness :
    srcL17.dbId = "L-17" ∧
    allIds (executeSupportAction boardC4 "ult" srcL17 {} [0]).1 = allIds boardC4 :=
  ⟨rfl, executeSupportAction_l17_conserves_allIds boardC4 "ult" srcL17 {} [0] rfl⟩

/-! ## Turn-machinery lemmas -/

theorem getD_map_of_none (f : Option Card → Option Card) (hf : f none = none)
    (l : List (Option Card)) (i : ℕ) :
    (l.map f).getD i none = f (l.getD i none) := by
  rw [List.getD_eq_getElem?_getD, List.getD_eq_getElem?_getD, List.getElem?_map]
  cases l[i]? with
  | none => simpa using hf.symm
  | some a => rfl

theorem byRole_setRole_cases (s : BoardState) (r r' : Role) (ps : PlayerState) :
    (s.setRole r ps).byRole r' = if r' = r then ps else s.byRole r' := by
  cases r <;> cases r' <;> simp [BoardState.setRole, BoardState.byRole]

theorem sideAux_refl (ps : PlayerState) : sideAux ps ps := ⟨rfl, rfl, rfl, rfl⟩

theorem sideAux_trans {a b c : PlayerState} (h1 : sideAux a b) (h2 : sideAux b c) :
    sideAux a c :=
  ⟨h1.1.trans h2.1, h1.2.1.trans h2.2.1, h1.2.2.1.trans h2.2.2.1,
   h1.2.2.2.trans h2.2.2.2⟩

theorem sideAux_setSlot (ps : PlayerState) (ln : Line) (i : ℕ) (c : Option Card) :
    sideAux (ps.setSlot ln i c) ps := by
  cases ln <;> exact ⟨rfl, rfl, rfl, rfl⟩

theorem sideAux_setRole (Y : BoardState) (rr : Role) (psx : PlayerState)
    (hx : sideAux psx (Y.byRole rr)) (r : Role) :
    sideAux ((Y.setRole rr psx).byRole r) (Y.byRole r) := by
  rw [byRole_setRole_cases]
  split
  · rename_i h; rw [h]; exact hx
  · exact sideAux_refl _

theorem releaseStep_aux (room : Room) (a : Role × Line × ℕ) :
    (releaseStep room a).match_ = room.match_ ∧
    ∀ r, sideAux ((releaseStep room a).state.byRole r) (room.state.byRole r) := by
  obtain ⟨r0, ln0, i0⟩ := a
  unfold releaseStep
  dsimp only
  split
  · exact ⟨rfl, fun r => sideAux_refl _⟩
  · split
    · exact ⟨rfl, fun r => sideAux_refl _⟩
    · split
      · exact ⟨rfl, fun r => sideAux_refl _⟩
      · split
        · exact ⟨rfl, fun r => sideAux_refl _⟩
        · split
          · refine ⟨rfl, fun r => ?_⟩
            exact sideAux_setRole room.state r0 _ (sideAux_setSlot _ _ _ _) r
          · rename_i originalOwner heq
            split
            · exact ⟨rfl, fun r => sideAux_refl _⟩
            · refine ⟨rfl, fun r => ?_⟩
              exact sideAux_trans
                (sideAux_setRole _ originalOwner _ (sideAux_setSlot _ _ _ _) r)
                (sideAux_setRole room.state r0 _ (sideAux_setSlot _ _ _ _) r)

theorem handleControlRelease_aux (room : Room) :
    (handleControlRelease room).match_ = room.match_ ∧
    ∀ r, sideAux ((handleControlRelease room).state.byRole r)
      (room.state.byRole r) := by
  unfold handleControlRelease
  generalize roleSlots = l
  induction l generalizing room with
  | nil => exact ⟨rfl, fun r => sideAux_refl _⟩
  | cons a t ih =>
    rw [List.foldl_cons]
    obtain ⟨hm, hs⟩ := ih (releaseStep room a)
    obtain ⟨hm0, hs0⟩ := releaseStep_aux room a
    exact ⟨hm.trans hm0, fun r => sideAux_trans (hs r) (hs0 r)⟩

theorem releaseStep_id (room : Room) (a : Role × Line × ℕ)
    (h : ∀ r ln i c, (room.state.byRole r).slot ln i = some c →
      c.controlReleaseTurn = none) :
    releaseStep room a = room := by
  obtain ⟨r0, ln0, i0⟩ := a
  unfold releaseStep
  dsimp only
  split
  · rfl
  · rename_i card hslot
    rw [h r0 ln0 i0 card hslot]

theorem foldl_room_const {α : Type} (f : Room → α → Room) (room : Room)
    (l : List α) (h : ∀ a, f room a = room) : l.foldl f room = room := by
  induction l with
  | nil => rfl
  | cons a t ih => rw [List.foldl_cons, h a]; exact ih

theorem handleControlRelease_id (room : Room)
    (h : ∀ r ln i c, (room.state.byRole r).slot ln i = some c →
      c.controlReleaseTurn = none) :
    handleControlRelease room = room :=
  foldl_room_const _ _ _ (fun a => releaseStep_id room a h)

theorem applyStartTurnEffects_byRole_other (s : BoardState) (r r' : Role)
    (h : r ≠ r') : (applyStartTurnEffects s r).byRole r' = s.byRole r' := by
  unfold applyStartTurnEffects
  dsimp only
  rw [BoardState.byRole_setRole_other _ _ _ _ h]

theorem cleanupDeadCards_byRole_other (s : BoardState) (r r' : Role)
    (h : r ≠ r') : (cleanupDeadCards s r).byRole r' = s.byRole r' := by
  unfold cleanupDeadCards
  dsimp only
  rw [BoardState.byRole_setRole_other _ _ _ _ h]

theorem decrementStatusEffectsForRole_byRole_other (s : BoardState) (r r' : Role)
    (h : r ≠ r') : (decrementStatusEffectsForRole s r).byRole r' = s.byRole r' := by
  unfold decrementStatusEffectsForRole
  dsimp only
  rw [BoardState.byRole_setRole_other _ _ _ _ h]

theorem gainPAOnBoard_byRole_other (s : BoardState) (r r' : Role) (g : ℚ)
    (h : r ≠ r') : (gainPAOnBoard s r g).byRole r' = s.byRole r' := by
  unfold gainPAOnBoard
  dsimp only
  rw [BoardState.byRole_setRole_other _ _ _ _ h]

theorem drawOne_byRole_other (s : BoardState) (r r' : Role) (h : r ≠ r') :
    ((drawOne s r).1).byRole r' = s.byRole r' := by
  unfold drawOne
  dsimp only
  split
  · rfl
  · rw [BoardState.byRole_setRole_other _ _ _ _ h]

theorem applyStartTurnEffects_sideAux (s : BoardState) (r : Role) :
    sideAux ((applyStartTurnEffects s r).byRole r) (s.byRole r) := by
  unfold applyStartTurnEffects
  dsimp only
  rw [BoardState.byRole_setRole_same]
  exact ⟨rfl, rfl, rfl, rfl⟩

theorem cleanupDeadCards_sideAux (s : BoardState) (r : Role) :
    sideAux ((cleanupDeadCards s r).byRole r) (s.byRole r) := by
  unfold cleanupDeadCards
  dsimp only
  rw [BoardState.byRole_setRole_same]
  exact ⟨rfl, rfl, rfl, rfl⟩

theorem decrementStatusEffectsForRole_sideAux (s : BoardState) (r : Role) :
    sideAux ((decrementStatusEffectsForRole s r).byRole r) (s.byRole r) := by
  unfold decrementStatusEffectsForRole
  dsimp only
  rw [BoardState.byRole_setRole_same]
  exact ⟨rfl, rfl, rfl, rfl⟩

theorem gainPAOnBoard_pi (s : BoardState) (r : Role) (g : ℚ) :
    ((gainPAOnBoard s r g).byRole r).pi = (s.byRole r).pi ∧
    ((gainPAOnBoard s r g).byRole r).maxPi = (s.byRole r).maxPi := by
  unfold gainPAOnBoard
  dsimp only
  rw [BoardState.byRole_setRole_same]
  exact ⟨rfl, rfl⟩

theorem drawOne_pi (s : BoardState) (r : Role) :
    ((drawOne s r).1.byRole r).pi = (s.byRole r).pi ∧
    ((drawOne s r).1.byRole r).maxPi = (s.byRole r).maxPi := by
  unfold drawOne
  dsimp only
  split
  · exact ⟨rfl, rfl⟩
  · rw [BoardState.byRole_setRole_same]
    exact ⟨rfl, rfl⟩

theorem resetPIForBoth_line (s : BoardState) (r : Role) (ln : Line) :
    ((resetPIForBoth s).byRole r).line ln = (s.byRole r).line ln := by
  cases r <;> cases ln <;> rfl

theorem resetPIForBoth_slot (s : BoardState) (r : Role) (ln : Line) (i : ℕ) :
    ((resetPIForBoth s).byRole r).slot ln i = (s.byRole r).slot ln i := by
  simp only [PlayerState.slot, resetPIForBoth_line]

theorem resetPIForBoth_pi (s : BoardState) (r : Role) :
    ((resetPIForBoth s).byRole r).pi = 7 ∧
    ((resetPIForBoth s).byRole r).maxPi = 7 := by
  cases r <;> exact ⟨rfl, rfl⟩

theorem gainPAOnBoard_line (s : BoardState) (r : Role) (g : ℚ) (ln : Line) :
    ((gainPAOnBoard s r g).byRole r).line ln
      = ((s.byRole r).line ln).map (Option.map (gainPACard g)) := by
  unfold gainPAOnBoard
  dsimp only
  rw [BoardState.byRole_setRole_same]
  cases ln <;> rfl

theorem gainPAOnBoard_slot (s : BoardState) (r : Role) (g : ℚ) (ln : Line)
    (i : ℕ) :
    ((gainPAOnBoard s r g).byRole r).slot ln i
      = Option.map (gainPACard g) ((s.byRole r).slot ln i) := by
  simp only [PlayerState.slot, gainPAOnBoard_line]
  exact getD_map_of_none _ rfl _ _

theorem gainPACard_controlReleaseTurn (g : ℚ) (c : Card) :
    (gainPACard g c).controlReleaseTurn = c.controlReleaseTurn := rfl

theorem cleanupDeadCards_slot (s : BoardState) (r : Role) (ln : Line) (i : ℕ) :
    ((cleanupDeadCards s r).byRole r).slot ln i
      = clearDead ((s.byRole r).slot ln i) := by
  unfold cleanupDeadCards
  dsimp only
  rw [BoardState.byRole_setRole_same]
  cases ln <;>
    (simp only [PlayerState.slot, PlayerState.line]
     exact getD_map_of_none _ rfl _ _)

theorem decrementStatusEffectsForRole_slot (s : BoardState) (r : Role)
    (ln : Line) (i : ℕ) :
    ((decrementStatusEffectsForRole s r).byRole r).slot ln i
      = Option.map decrementCardEffects ((s.byRole r).slot ln i) := by
  unfold decrementStatusEffectsForRole
  dsimp only
  rw [BoardState.byRole_setRole_same]
  cases ln <;>
    (simp only [PlayerState.slot, PlayerState.line]
     exact getD_map_of_none _ rfl _ _)

theorem drawOne_line (s : BoardState) (r : Role) (ln : Line) :
    ((drawOne s r).1.byRole r).line ln = (s.byRole r).line ln := by
  unfold drawOne
  dsimp only
  split
  · rfl
  · rw [BoardState.byRole_setRole_same]
    cases ln <;> rfl

theorem drawOne_slot (s : BoardState) (r : Role) (ln : Line) (i : ℕ) :
    ((drawOne s r).1.byRole r).slot ln i = (s.byRole r).slot ln i := by
  simp only [PlayerState.slot, drawOne_line]

theorem drawOne_deck_nil (s : BoardState) (r : Role)
    (h : (s.byRole r).deck = []) : (drawOne s r).1 = s := by
  unfold drawOne
  dsimp only
  rw [h]

theorem drawOne_deck_cons (s : BoardState) (r : Role) (c : Card)
    (rest : List Card) (h : (s.byRole r).deck = c :: rest) :
    ((drawOne s r).1.byRole r).deck = rest ∧
    ((drawOne s r).1.byRole r).hand = (s.byRole r).hand ++ [c] := by
  unfold drawOne
  dsimp only
  rw [h]
  dsimp only
  rw [BoardState.byRole_setRole_same]
  exact ⟨rfl, rfl⟩

theorem decStep_hp (c : Card) (e : StatusEffect) : (decStep c e).hp = c.hp := by
  unfold decStep
  dsimp only
  split
  · rfl
  · split
    · rfl
    · rfl

theorem foldl_decStep_hp (l : List StatusEffect) :
    ∀ c : Card, (l.foldl decStep c).hp = c.hp := by
  induction l with
  | nil => intro c; rfl
  | cons e t ih =>
    intro c
    rw [List.foldl_cons, ih (decStep c e), decStep_hp]

theorem decrementCardEffects_hp (c : Card) :
    (decrementCardEffects c).hp = c.hp :=
  foldl_decStep_hp c.statusEffects c

theorem clearDead_some (oc : Option Card) (c : Card)
    (h : clearDead oc = some c) : 0 < c.hp := by
  cases oc with
  | none => simp [clearDead] at h
  | some c0 =>
    simp only [clearDead] at h
    by_cases hle : c0.hp ≤ 0
    · rw [if_pos hle] at h
      simp at h
    · rw [if_neg hle] at h
      cases Option.some.inj h
      exact not_le.mp hle

theorem foldl_decStep_post (todo : List StatusEffect) :
    ∀ c : Card,
      (∀ x ∈ c.statusEffects, x.meta.permanent = false → 0 < x.turnsLeft ∨ x ∈ todo) →
      ∀ x ∈ (todo.foldl decStep c).statusEffects,
        x.meta.permanent = false → 0 < x.turnsLeft := by
  induction todo with
  | nil =>
    intro c hc x hx hperm
    rcases hc x hx hperm with h | h
    · exact h
    · simp at h
  | cons e rest ih =>
    intro c hc
    rw [List.foldl_cons]
    apply ih
    intro x hx hperm
    unfold decStep at hx
    by_cases hp : e.meta.permanent = true
    · rw [if_pos hp] at hx
      rcases hc x hx hperm with h | h
      · exact Or.inl h
      · rcases List.mem_cons.mp h with h2 | h2
        · exfalso
          rw [← h2, hperm] at hp
          exact Bool.false_ne_true hp
        · exact Or.inr h2
    · rw [if_neg hp] at hx
      dsimp only at hx
      by_cases ht : jsMax 0 (e.turnsLeft - 1) ≤ 0
      · rw [if_pos ht] at hx
        unfold removeStatusEffect at hx
        dsimp only at hx
        rw [List.mem_filter] at hx
        obtain ⟨hx1, hx2⟩ := hx
        rw [List.mem_map] at hx1
        obtain ⟨y, hy, hxy⟩ := hx1
        by_cases hye : y = e
        · rw [if_pos hye] at hxy
          exfalso
          rw [← hxy] at hx2
          simp at hx2
        · rw [if_neg hye] at hxy
          rcases hc y hy (by rw [hxy]; exact hperm) with h | h
          · exact Or.inl (hxy ▸ h)
          · rcases List.mem_cons.mp h with h2 | h2
            · exact absurd h2 hye
            · exact Or.inr (hxy ▸ h2)
      · rw [if_neg ht] at hx
        rw [List.mem_map] at hx
        obtain ⟨y, hy, hxy⟩ := hx
        by_cases hye : y = e
        · rw [if_pos hye] at hxy
          left
          rw [← hxy]
          exact not_le.mp ht
        · rw [if_neg hye] at hxy
          rcases hc y hy (by rw [hxy]; exact hperm) with h | h
          · exact Or.inl (hxy ▸ h)
          · rcases List.mem_cons.mp h with h2 | h2
            · exact absurd h2 hye
            · exact Or.inr (hxy ▸ h2)

theorem decrementCardEffects_post (c : Card) :
    ∀ x ∈ (decrementCardEffects c).statusEffects,
      x.meta.permanent = false → 0 < x.turnsLeft :=
  foldl_decStep_post c.statusEffects c (fun x hx _ => Or.inr hx)

theorem setDrawn_activeRole (m : MatchState) (r : Role) (b : Bool) :
    (setDrawn m r b).activeRole = m.activeRole := by
  cases r <;> rfl

theorem setDrawn_turnCounter (m : MatchState) (r : Role) (b : Bool) :
    (setDrawn m r b).turnCounter = m.turnCounter := by
  cases r <;> rfl

theorem setDrawn_round (m : MatchState) (r : Role) (b : Bool) :
    (setDrawn m r b).round = m.round := by
  cases r <;> rfl

theorem applyStartTurnEffects_slot (s : BoardState) (r : Role) (ln : Line)
    (i : ℕ) :
    ((applyStartTurnEffects s r).byRole r).slot ln i
      = Option.map (startTurnCardUpdate s
          ((getTeamEffects (s.byRole r) "pa_bonus_start").foldl
            (fun a e => a + e.value) 0))
        ((s.byRole r).slot ln i) := by
  unfold applyStartTurnEffects
  dsimp only
  rw [BoardState.byRole_setRole_same]
  cases ln <;>
    (simp only [PlayerState.slot, PlayerState.line]
     exact getD_map_of_none _ rfl _ _)

/-- C8: what `startTurn` guarantees for the starting side, for every room
and role: the side is marked active; with an empty deck the automatic draw
is a no-op and the turn proceeds without error, otherwise exactly the deck
head is drawn into the hand; every card left on the side's board has
positive health (the dead sweep ran after start-of-turn effects); and
every non-permanent status effect remaining on the side's board has
strictly positive `turnsLeft` (the decrement removed the expired ones). -/
theorem startTurn_order_spec (room : Room) (role : Role) (out : Room)
    (hout : out = startTurn room role) :
    out.match_.activeRole = role ∧
    ((room.state.byRole role).deck = [] →
      (out.state.byRole role).deck = [] ∧
      (out.state.byRole role).hand = (room.state.byRole role).hand) ∧
    (∀ c rest, (room.state.byRole role).deck = c :: rest →
      (out.state.byRole role).deck = rest ∧
      (out.state.byRole role).hand = (room.state.byRole role).hand ++ [c]) ∧
    (∀ ln i c, (out.state.byRole role).slot ln i = some c → 0 < c.hp) ∧
    (∀ ln i c, (out.state.byRole role).slot ln i = some c →
      ∀ e ∈ c.statusEffects, e.meta.permanent = false → 0 < e.turnsLeft) := by
  subst hout
  obtain ⟨hm1, hside1⟩ := handleControlRelease_aux room
  set r1 := handleControlRelease room with hr1
  set s2 := applyStartTurnEffects r1.state role with hs2
  set s3 := cleanupDeadCards s2 role with hs3
  set s4 := decrementStatusEffectsForRole s3 role with hs4
  have hform : startTurn room role =
      { state := (drawOne s4 role).1,
        match_ := setDrawn (setDrawn ({ r1.match_ with activeRole := role })
          role false) role true } := by
    rw [startTurn]
  have hside : sideAux (s4.byRole role) (room.state.byRole role) :=
    sideAux_trans (decrementStatusEffectsForRole_sideAux s3 role)
      (sideAux_trans (cleanupDeadCards_sideAux s2 role)
        (sideAux_trans (applyStartTurnEffects_sideAux r1.state role)
          (hside1 role)))
  rw [hform]
  dsimp only
  refine ⟨?_, ?_, ?_, ?_, ?_⟩
  · rw [setDrawn_activeRole, setDrawn_activeRole]
  · intro h
    have hdeck : (s4.byRole role).deck = [] := hside.2.1.trans h
    have hdd := drawOne_deck_nil s4 role hdeck
    constructor
    · rw [hdd]
      exact hdeck
    · rw [hdd]
      exact hside.1
  · intro c rest h
    have hdeck : (s4.byRole role).deck = c :: rest := hside.2.1.trans h
    obtain ⟨hd1, hd2⟩ := drawOne_deck_cons s4 role c rest hdeck
    exact ⟨hd1, hd2.trans (by rw [hside.1])⟩
  · intro ln i c hc
    rw [drawOne_slot, hs4, decrementStatusEffectsForRole_slot] at hc
    obtain ⟨c3, hc3, hmapc⟩ := Option.map_eq_some'.mp hc
    rw [hs3, cleanupDeadCards_slot] at hc3
    have h0 := clearDead_some _ _ hc3
    rw [← hmapc, decrementCardEffects_hp]
    exact h0
  · intro ln i c hc
    rw [drawOne_slot, hs4, decrementStatusEffectsForRole_slot] at hc
    obtain ⟨c3, hc3, hmapc⟩ := Option.map_eq_some'.mp hc
    rw [← hmapc]
    exact decrementCardEffects_post c3

/-- A filler card occupying every slot of `p2`'s board in the C8 scenario. -/
def fillerC8 : Card := { sampleCard with instanceId := "f", owner := .p2 }

/-- A mind-controlled card sitting on `p1`'s board whose control window
expired at turn 1 (the match is at turn 5). -/
def ctrlC8 : Card := { sampleCard with
  instanceId := "ctl", owner := .p1, controlledBy := some .p1,
  controlOriginOwner := some .p2, controlOriginLine := some .front,
  controlOriginIndex := some 0, controlReleaseTurn := some 1,
  controlImmune := true, controlMoved := true }

/-- C8 scenario: the original owner `p2` has a completely full board, so
the due release of `ctl` finds no free slot. -/
def roomC8 : Room :=
  { state :=
      { p1 := { emptyPlayer with
          front := [some ctrlC8, none, none, none, none] },
        p2 := { emptyPlayer with
          front := [some fillerC8, some fillerC8, some fillerC8, some fillerC8,
            some fillerC8],
          back := [some fillerC8, some fillerC8, some fillerC8, some fillerC8,
            some fillerC8] } },
    match_ := { freshMatch with turnCounter := 5 } }

/-- C8 counterexample.  The claim says expired mind-controlled cards are
returned to their original side at the start of a turn, but when the
original side's board is completely full the `if (!place) continue` path
in `handleControlRelease` skips the card: after a full `startTurn` the
expired card (release turn 1, current turn 5) is still sitting on the
controller's board with its release markers intact. -/
theorem startTurn_release_skipped_when_board_full :
    roomC8.match_.turnCounter = 5 ∧
    ctrlC8.controlReleaseTurn = some 1 ∧
    ((startTurn roomC8 .p1).state.byRole .p1).slot .front 0 = some ctrlC8 := by
  refine ⟨rfl, rfl, ?_⟩
  have h1 : handleControlRelease roomC8 = roomC8 := by
    norm_num [handleControlRelease, roleSlots, slotList, releaseStep,
      firstEmptySlot, roomC8, ctrlC8, fillerC8, sampleCard, emptyPlayer,
      freshMatch, BoardState.byRole, BoardState.setRole, PlayerState.slot,
      PlayerState.line, List.findIdx?, List.getD_cons_zero, List.getD_cons_succ]
  have hs : ((startTurn roomC8 .p1).state.byRole .p1).slot .front 0
      = Option.map decrementCardEffects (clearDead (Option.map
          (startTurnCardUpdate roomC8.state
            ((getTeamEffects (roomC8.state.byRole .p1) "pa_bonus_start").foldl
              (fun a e => a + e.value) 0))
          ((roomC8.state.byRole .p1).slot .front 0))) := by
    rw [startTurn]
    dsimp only
    rw [h1, drawOne_slot, decrementStatusEffectsForRole_slot,
      cleanupDeadCards_slot, applyStartTurnEffects_slot]
  rw [hs]
  norm_num [roomC8, ctrlC8, fillerC8, sampleCard, emptyPlayer, freshMatch,
    BoardState.byRole, PlayerState.slot, PlayerState.line, List.getD_cons_zero,
    startTurnCardUpdate, getActiveEffects, isSuppressed, getTeamEffects,
    clearDead, decrementCardEffects, jsMin, jsInt, jsMax]

/-- Witness for `startTurn_order_spec` at the C8 scenario room: `p1` is
marked active and the empty-deck draw leaves the hand empty. -/
theorem startTurn_order_spec_witness :
    (startTurn roomC8 .p1).match_.activeRole = .p1 ∧
    ((startTurn roomC8 .p1).state.byRole .p1).hand = [] :=
  have h := startTurn_order_spec roomC8 .p1 (startTurn roomC8 .p1) rfl
  ⟨h.1, ((h.2.1 rfl).2).trans rfl⟩

theorem startTurn_after_release_id (S : BoardState) (M : MatchState)
    (next : Role)
    (hrel2 : ∀ r ln i c, (S.byRole r).slot ln i = some c →
      c.controlReleaseTurn = none) :
    startTurn ⟨S, M⟩ next =
      { state := (drawOne (decrementStatusEffectsForRole (cleanupDeadCards
          (applyStartTurnEffects S next) next) next) next).1,
        match_ := setDrawn (setDrawn ({ M with activeRole := next }) next false)
          next true } := by
  have hid : handleControlRelease ⟨S, M⟩ = ⟨S, M⟩ :=
    handleControlRelease_id _ hrel2
  rw [startTurn]
  dsimp only
  rw [hid]

/-- C7: ending the turn as the active side bumps the turn counter by one,
increments the round and refreshes both resource pools to `MAX_PI = 7`
exactly when the ending side is `p2`, hands the turn to the opponent, and
rewrites every card on the ending side's board with the fixed +2
action-point regeneration clamped at the card's maximum (`gainPACard 2`),
provided no mind-control release is pending anywhere on the board. -/
theorem endTurn_spec (room : Room) (role : Role) (out : Room)
    (hact : room.match_.activeRole = role)
    (hrel : ∀ r ln i c, (room.state.byRole r).slot ln i = some c →
      c.controlReleaseTurn = none)
    (hout : out = endTurnIntent room role) :
    out.match_.turnCounter = room.match_.turnCounter + 1 ∧
    out.match_.round =
      (if role = .p2 then room.match_.round + 1 else room.match_.round) ∧
    (out.state.byRole .p1).pi =
      (if role = .p2 then (7 : ℚ) else (room.state.byRole .p1).pi) ∧
    (out.state.byRole .p2).pi =
      (if role = .p2 then (7 : ℚ) else (room.state.byRole .p2).pi) ∧
    out.match_.activeRole = enemyRoleOf role ∧
    ∀ ln, (out.state.byRole role).line ln =
      ((room.state.byRole role).line ln).map (Option.map (gainPACard 2)) := by
  subst hout
  cases role with
  | p1 =>
    rw [endTurnIntent, if_pos hact]
    dsimp only
    rw [if_pos (rfl : Role.p1 = Role.p1),
      if_neg (show ¬ (Role.p1 = Role.p2) by decide)]
    have hrel2 : ∀ r ln i c,
        ((gainPAOnBoard room.state .p1 2).byRole r).slot ln i = some c →
          c.controlReleaseTurn = none := by
      intro r ln i c hc
      by_cases hr : r = .p1
      · subst hr
        rw [gainPAOnBoard_slot] at hc
        obtain ⟨c0, hc0, hcc⟩ := Option.map_eq_some'.mp hc
        rw [← hcc, gainPACard_controlReleaseTurn]
        exact hrel .p1 ln i c0 hc0
      · have hr2 : r = .p2 := by
          cases r
          · exact absurd rfl hr
          · rfl
        subst hr2
        rw [gainPAOnBoard_byRole_other _ _ _ _ (by decide)] at hc
        exact hrel .p2 ln i c hc
    rw [startTurn_after_release_id _ _ _ hrel2]
    dsimp only
    refine ⟨?_, ?_, ?_, ?_, ?_, ?_⟩
    · rw [setDrawn_turnCounter, setDrawn_turnCounter]
    · rw [setDrawn_round, setDrawn_round, if_neg (show ¬ (Role.p1 = Role.p2) by decide)]
    · rw [drawOne_byRole_other _ _ _ (by decide),
        decrementStatusEffectsForRole_byRole_other _ _ _ (by decide),
        cleanupDeadCards_byRole_other _ _ _ (by decide),
        applyStartTurnEffects_byRole_other _ _ _ (by decide),
        if_neg (show ¬ (Role.p1 = Role.p2) by decide)]
      exact (gainPAOnBoard_pi room.state .p1 2).1
    · rw [(drawOne_pi _ .p2).1,
        (decrementStatusEffectsForRole_sideAux _ .p2).2.2.1,
        (cleanupDeadCards_sideAux _ .p2).2.2.1,
        (applyStartTurnEffects_sideAux _ .p2).2.2.1,
        gainPAOnBoard_byRole_other _ _ _ _ (by decide),
        if_neg (show ¬ (Role.p1 = Role.p2) by decide)]
    · rw [setDrawn_activeRole, setDrawn_activeRole]
      rfl
    · intro ln
      rw [drawOne_byRole_other _ _ _ (by decide),
        decrementStatusEffectsForRole_byRole_other _ _ _ (by decide),
        cleanupDeadCards_byRole_other _ _ _ (by decide),
        applyStartTurnEffects_byRole_other _ _ _ (by decide)]
      exact gainPAOnBoard_line room.state .p1 2 ln
  | p2 =>
    rw [endTurnIntent, if_pos hact]
    dsimp only
    rw [if_neg (show ¬ (Role.p2 = Role.p1) by decide),
      if_pos (rfl : Role.p2 = Role.p2)]
    have hrel2 : ∀ r ln i c,
        ((resetPIForBoth (gainPAOnBoard room.state .p2 2)).byRole r).slot ln i
          = some c → c.controlReleaseTurn = none := by
      intro r ln i c hc
      rw [resetPIForBoth_slot] at hc
      by_cases hr : r = .p2
      · subst hr
        rw [gainPAOnBoard_slot] at hc
        obtain ⟨c0, hc0, hcc⟩ := Option.map_eq_some'.mp hc
        rw [← hcc, gainPACard_controlReleaseTurn]
        exact hrel .p2 ln i c0 hc0
      · have hr2 : r = .p1 := by
          cases r
          · rfl
          · exact absurd rfl hr
        subst hr2
        rw [gainPAOnBoard_byRole_other _ _ _ _ (by decide)] at hc
        exact hrel .p1 ln i c hc
    rw [startTurn_after_release_id _ _ _ hrel2]
    dsimp only
    refine ⟨?_, ?_, ?_, ?_, ?_, ?_⟩
    · rw [setDrawn_turnCounter, setDrawn_turnCounter]
    · rw [setDrawn_round, setDrawn_round, if_pos (rfl : Role.p2 = Role.p2)]
    · rw [(drawOne_pi _ .p1).1,
        (decrementStatusEffectsForRole_sideAux _ .p1).2.2.1,
        (cleanupDeadCards_sideAux _ .p1).2.2.1,
        (applyStartTurnEffects_sideAux _ .p1).2.2.1,
        if_pos (rfl : Role.p2 = Role.p2)]
      exact (resetPIForBoth_pi _ .p1).1
    · rw [drawOne_byRole_other _ _ _ (by decide),
        decrementStatusEffectsForRole_byRole_other _ _ _ (by decide),
        cleanupDeadCards_byRole_other _ _ _ (by decide),
        applyStartTurnEffects_byRole_other _ _ _ (by decide),
        if_pos (rfl : Role.p2 = Role.p2)]
      exact (resetPIForBoth_pi _ .p2).1
    · rw [setDrawn_activeRole, setDrawn_activeRole]
      rfl
    · intro ln
      rw [drawOne_byRole_other _ _ _ (by decide),
        decrementStatusEffectsForRole_byRole_other _ _ _ (by decide),
        cleanupDeadCards_byRole_other _ _ _ (by decide),
        applyStartTurnEffects_byRole_other _ _ _ (by decide),
        resetPIForBoth_line]
      exact gainPAOnBoard_line room.state .p2 2 ln

/-- The room used to witness `endTurn_spec`: a fresh match with empty
boards, `p1` active. -/
def roomC7w : Room :=
  { state := { p1 := emptyPlayer, p2 := emptyPlayer }, match_ := freshMatch }

/-- Witness for `endTurn_spec`: ending `p1`'s first turn bumps the turn
counter to 2 and makes `p2` active. -/
theorem endTurn_spec_witness :
    roomC7w.match_.activeRole = .p1 ∧
    (endTurnIntent roomC7w .p1).match_.turnCounter = 2 ∧
    (endTurnIntent roomC7w .p1).match_.activeRole = .p2 := by
  have hrel : ∀ r ln i c, (roomC7w.state.byRole r).slot ln i = some c →
      c.controlReleaseTurn = none := by
    intro r ln i c hc
    exfalso
    cases r <;> cases ln <;>
      (rcases i with _|_|_|_|_|i <;>
        simp [roomC7w, emptyPlayer, PlayerState.slot, PlayerState.line,
          BoardState.byRole, List.getD_cons_zero, List.getD_cons_succ] at hc)
  have h := endTurn_spec roomC7w .p1 (endTurnIntent roomC7w .p1) rfl hrel rfl
  refine ⟨rfl, ?_, ?_⟩
  · rw [h.1]
    norm_num [roomC7w, freshMatch]
  · rw [h.2.2.2.2.1]
    rfl

/-- Witness for `redactStateForRole_spec`: two states whose `p2` hands hold
different cards (same count) yield the same snapshot for `p1`. -/
theorem redactStateForRole_spec_witness :
    (redactStateForRole
        { p1 := emptyPlayer,
          p2 := { emptyPlayer with hand := [sampleCard], handCount := 1 } }
        .p1).byRole (enemyRoleOf .p1) =
      { ({ emptyPlayer with hand := [sampleCard], handCount := 1 } :
          PlayerState) with hand := ([] : List Card), deck := ([] : List Card) } ∧
    redactStateForRole
        { p1 := emptyPlayer,
          p2 := { emptyPlayer with hand := [sampleCard], handCount := 1 } } .p1 =
      redactStateForRole
        { p1 := emptyPlayer,
          p2 := { emptyPlayer with
                    hand := [{ sampleCard with instanceId := "other" }],
                    handCount := 1 } } .p1 := by
  have h := redactStateForRole_spec
    { p1 := emptyPlayer,
      p2 := { emptyPlayer with hand := [sampleCard], handCount := 1 } }
    { p1 := emptyPlayer,
      p2 := { emptyPlayer with
                hand := [{ sampleCard with instanceId := "other" }],
                handCount := 1 } }
    .p1 (by decide) (by decide)
  exact ⟨h.1, h.2.2⟩

end PvP
